import Mathlib

/-!
# Station-mode connection manager (`main_test_lwesp.c`)

A shallow embedding of `connect_to_preferred_access_point`, `lwesp_callback_func`,
`utils_print_ip` and `user_thread_entry`.

* The WiFi driver and the RTOS are external collaborators.  The driver is a record of
  state-transforming functions (`Driver σ`); every call the C code makes is threaded through
  it, and every observable effect (driver call, `printf`, thread creation, sleep, read of the
  global buffer `aps`) is recorded, in program order, in a trace of `Event`s.
* The globals `aps` and `apf` are fields of `State`.
* `for` loops run over the list of their indices.  The `do { ... } while (1)` loop of the
  connector takes a fuel argument that bounds the number of iterations and yields `none`
  when the bound is reached before the function returns; the `while (1)` loop of the
  supervisor runs for a given number of iterations.
-/

namespace LwespStation

/-! ## Types of the driver interface -/

/-- Result enumeration `lwespr_t`.  Its declaration lives in the driver headers; the program
names three members, every other member is `lwespOTHER code`. -/
inductive lwespr_t where
  | lwespOK
  | lwespERR
  | lwespERRNODEVICE
  | lwespOTHER (code : Nat)
  deriving DecidableEq, Repr

/-- Event tags `lwesp_evt_type_t`: the four tags the callback names, and every other tag. -/
inductive lwesp_evt_type_t where
  | LWESP_EVT_AT_VERSION_NOT_SUPPORTED
  | LWESP_EVT_INIT_FINISH
  | LWESP_EVT_RESET_DETECTED
  | LWESP_EVT_WIFI_IP_ACQUIRED
  | LWESP_EVT_OTHER (tag : Nat)
  deriving DecidableEq, Repr

/-- Firmware version `lwesp_sw_version_t`. -/
structure lwesp_sw_version_t where
  major : Nat
  minor : Nat
  patch : Nat
  deriving DecidableEq, Repr

/-- IP address `lwesp_ip_t`: the type tag and the two views of the address union. -/
structure lwesp_ip_t where
  is_v6 : Bool
  ip4 : List Nat
  ip6 : List Nat
  deriving DecidableEq, Repr

/-- Discovered access point `lwesp_ap_t` (the fields the program reads). -/
structure lwesp_ap_t where
  ssid : String
  ch : Int
  rssi : Int
  deriving DecidableEq, Repr

/-- A zero-initialised buffer slot. -/
instance : Inhabited lwesp_ap_t := ⟨⟨"", 0, 0⟩⟩

/-- Preferred network `ap_entry_t`. -/
structure ap_entry_t where
  ssid : String
  pass : String
  deriving DecidableEq, Repr

/-- The table `ap_list` of the source. -/
def ap_list : List ap_entry_t :=
  [ ⟨"Neo's WIIF", "8220542Xy"⟩,
    ⟨"TilenM_ST", "its private"⟩,
    ⟨"Majerle WIFI", "majerle_internet_private"⟩,
    ⟨"Majerle AMIS", "majerle_internet_private"⟩ ]

/-- Capacity of the global buffer: `LWESP_ARRAYSIZE(aps)` for `static lwesp_ap_t aps[100]`. -/
def LWESP_ARRAYSIZE_aps : Nat := 100

/-! ## Effects -/

/-- An argument of a `printf` call. -/
inductive PfArg where
  | str (s : String)
  | int (n : Int)
  | res (r : lwespr_t)
  deriving DecidableEq, Repr

/-- One observable effect.  Driver calls carry the value the driver returned. -/
inductive Event where
  | printf (fmt : String) (args : List PfArg)
  | lwesp_init (r : lwespr_t)
  | lwesp_sta_is_joined (r : Bool)
  | lwesp_sta_has_ip (r : Bool)
  | lwesp_sta_list_ap (r : lwespr_t) (apf : Nat)
  | read_aps (i : Nat)
  | lwesp_sta_join (ssid pass : String) (r : lwespr_t)
  | lwesp_sta_copy_ip
  | lwesp_get_min_at_fw_version
  | lwesp_get_current_at_fw_version
  | tx_thread_create (name : String) (stack_size : Nat)
  | tx_thread_sleep (ticks : Nat)
  deriving DecidableEq, Repr

/-- The driver, as seen by the program: each call maps the driver state to the returned
value and the next driver state.  `lwesp_sta_list_ap` receives the buffer and its capacity
and returns the result code, the buffer as the call left it and the count it stored. -/
structure Driver (σ : Type) where
  LWESP_CFG_IPV6 : Bool
  lwesp_init : σ → lwespr_t × σ
  lwesp_sta_is_joined : σ → Bool × σ
  lwesp_sta_has_ip : σ → Bool × σ
  lwesp_sta_list_ap : σ → List lwesp_ap_t → Nat → lwespr_t × List lwesp_ap_t × Nat × σ
  lwesp_sta_join : String → String → σ → lwespr_t × σ
  lwesp_sta_copy_ip : σ → lwesp_ip_t × Nat × σ
  lwesp_get_min_at_fw_version : σ → lwesp_sw_version_t
  lwesp_get_current_at_fw_version : σ → lwesp_sw_version_t

/-- Program state: the driver state and the globals `aps`, `apf`. -/
structure State (σ : Type) where
  drv : σ
  aps : List lwesp_ap_t
  apf : Nat

/-- Outcome of running a piece of code: returned value, final state, effects in order. -/
structure Run (S α : Type) where
  ret : α
  st : S
  trace : List Event

/-- How one iteration of the connector's `do ... while (1)` body ends. -/
inductive Flow where
  | ret (v : lwespr_t)
  | brk
  | cont
  deriving DecidableEq, Repr

/-- Total indexing `aps[i]`: a slot that was never written is zero-initialised. -/
def aps_at (aps : List lwesp_ap_t) (i : Nat) : lwesp_ap_t := aps.getD i default

/-! ## The program -/

/-- Source `utils_print_ip`; both string arguments are non-NULL at the only call site. -/
def utils_print_ip (cfg_ipv6 : Bool) (str_b : String) (ip : lwesp_ip_t) (str_a : String) :
    List Event :=
  [Event.printf "%s" [PfArg.str str_b]] ++
  (if cfg_ipv6 && ip.is_v6 then
    [Event.printf "%04X:%04X:%04X:%04X:%04X:%04X:%04X:%04X\r\n"
      ((List.range 8).map fun k => PfArg.int (ip.ip6.getD k 0))]
  else
    [Event.printf "%d.%d.%d.%d\r\n" ((List.range 4).map fun k => PfArg.int (ip.ip4.getD k 0))]) ++
  [Event.printf "%s" [PfArg.str str_a]]

/-- The logging loop `for (i = 0; i < apf; i++) printf("AP found: ...", aps[i]...)`, over
the indices it visits. -/
def log_loop (aps : List lwesp_ap_t) : List Nat → List Event
  | [] => []
  | i :: is =>
    [Event.read_aps i, Event.read_aps i, Event.read_aps i,
      Event.printf "AP found: %s, CH: %d, RSSI: %d\r\n"
        [PfArg.str (aps_at aps i).ssid, PfArg.int (aps_at aps i).ch,
          PfArg.int (aps_at aps i).rssi]] ++ log_loop aps is

/-- The inner loop `for (i = 0; i < apf; i++)` for the preferred entry `e = ap_list[j]`, over
the indices still to visit.  The returned pair is the early `return` value, if any, and the
variable `tried`. -/
def inner_loop {σ : Type} (d : Driver σ) (e : ap_entry_t) :
    List Nat → State σ → Nat → Run (State σ) (Option lwespr_t × Nat)
  | [], st, tried => ⟨(none, tried), st, []⟩
  | i :: is, st, tried =>
    if (aps_at st.aps i).ssid = e.ssid then
      let jr := d.lwesp_sta_join e.ssid e.pass st.drv
      let pre := [Event.read_aps i,
        Event.printf "Connecting to \"%s\" network...\r\n" [PfArg.str e.ssid],
        Event.lwesp_sta_join e.ssid e.pass jr.1]
      if jr.1 = lwespr_t.lwespOK then
        let cr := d.lwesp_sta_copy_ip jr.2
        ⟨(some lwespr_t.lwespOK, 1), { st with drv := cr.2.2 },
          pre ++ [Event.printf "Connected to %s network!\r\n" [PfArg.str e.ssid],
            Event.lwesp_sta_copy_ip] ++
          utils_print_ip d.LWESP_CFG_IPV6 "Station IP address: " cr.1 "\r\n" ++
          [Event.printf "; Is DHCP: %d\r\n" [PfArg.int cr.2.1]]⟩
      else
        let r := inner_loop d e is { st with drv := jr.2 } 1
        ⟨r.ret, r.st, pre ++ [Event.printf "Connection error: %d\r\n" [PfArg.res jr.1]] ++ r.trace⟩
    else
      let r := inner_loop d e is st tried
      ⟨r.ret, r.st, Event.read_aps i :: r.trace⟩

/-- The outer loop `for (j = 0; j < LWESP_ARRAYSIZE(ap_list); j++)`, over the entries
`ap_list[j]` still to visit. -/
def outer_loop {σ : Type} (d : Driver σ) :
    List ap_entry_t → State σ → Nat → Run (State σ) (Option lwespr_t × Nat)
  | [], st, tried => ⟨(none, tried), st, []⟩
  | e :: es, st, tried =>
    let r := inner_loop d e (List.range st.apf) st tried
    match r.ret.1 with
    | some v => ⟨(some v, r.ret.2), r.st, r.trace⟩
    | none =>
      let r2 := outer_loop d es r.st r.ret.2
      ⟨r2.ret, r2.st, r.trace ++ r2.trace⟩

/-- The text logged when no preferred SSID was discovered. -/
def no_candidates_msg : String :=
  "No access points available with preferred SSID!\r\nPlease check station_manager.c file and edit preferred SSID access points!\r\n"

/-- One pass through the body of the `do ... while (1)` loop. -/
def connect_body {σ : Type} (d : Driver σ) (ap_list : List ap_entry_t) (unlimited : Nat)
    (st : State σ) : Run (State σ) Flow :=
  let hr := d.lwesp_sta_has_ip st.drv
  if hr.1 then
    ⟨Flow.ret lwespr_t.lwespOK, { st with drv := hr.2 }, [Event.lwesp_sta_has_ip true]⟩
  else
    let sr := d.lwesp_sta_list_ap hr.2 st.aps LWESP_ARRAYSIZE_aps
    let st1 : State σ := ⟨sr.2.2.2, sr.2.1, sr.2.2.1⟩
    let head := [Event.lwesp_sta_has_ip false, Event.printf "Scanning access points...\r\n" [],
      Event.lwesp_sta_list_ap sr.1 sr.2.2.1]
    if sr.1 = lwespr_t.lwespOK then
      let m := outer_loop d ap_list st1 0
      let t := head ++ log_loop st1.aps (List.range st1.apf) ++ m.trace
      match m.ret.1 with
      | some v => ⟨Flow.ret v, m.st, t⟩
      | none =>
        let t2 := t ++ (if m.ret.2 = 0 then [Event.printf no_candidates_msg []] else [])
        if unlimited = 0 then ⟨Flow.brk, m.st, t2⟩ else ⟨Flow.cont, m.st, t2⟩
    else if sr.1 = lwespr_t.lwespERRNODEVICE then
      ⟨Flow.brk, st1, head ++ [Event.printf "Device is not present!\r\n" []]⟩
    else
      let t := head ++ [Event.printf "Error on WIFI scan procedure!\r\n" []]
      if unlimited = 0 then ⟨Flow.brk, st1, t⟩ else ⟨Flow.cont, st1, t⟩

/-- Source `connect_to_preferred_access_point`.  The first `Nat` bounds the number of loop
iterations; the result is `none` when the bound is reached before the function returns. -/
def connect_to_preferred_access_point {σ : Type} (d : Driver σ) (ap_list : List ap_entry_t)
    (unlimited : Nat) : Nat → State σ → Run (State σ) (Option lwespr_t)
  | 0, st => ⟨none, st, []⟩
  | fuel + 1, st =>
    let b := connect_body d ap_list unlimited st
    match b.ret with
    | Flow.ret v => ⟨some v, b.st, b.trace⟩
    | Flow.brk => ⟨some lwespr_t.lwespERR, b.st, b.trace⟩
    | Flow.cont =>
      let r := connect_to_preferred_access_point d ap_list unlimited fuel b.st
      ⟨r.ret, r.st, b.trace ++ r.trace⟩

/-- Stack size `NETCONN_STACK_SIZE`. -/
def NETCONN_STACK_SIZE : Nat := 4096

/-- Source `lwesp_callback_func`, on the tag of the delivered event. -/
def lwesp_callback_func {σ : Type} (d : Driver σ) (evt : lwesp_evt_type_t) (s : σ) :
    Run σ lwespr_t :=
  match evt with
  | lwesp_evt_type_t.LWESP_EVT_AT_VERSION_NOT_SUPPORTED =>
    let v_min := d.lwesp_get_min_at_fw_version s
    let v_curr := d.lwesp_get_current_at_fw_version s
    ⟨lwespr_t.lwespOK, s,
      [Event.lwesp_get_min_at_fw_version, Event.lwesp_get_current_at_fw_version,
        Event.printf "Current ESP8266 AT version is not supported by library!\r\n" [],
        Event.printf "Minimum required AT version is: %d.%d.%d\r\n"
          [PfArg.int v_min.major, PfArg.int v_min.minor, PfArg.int v_min.patch],
        Event.printf "Current AT version is: %d.%d.%d\r\n"
          [PfArg.int v_curr.major, PfArg.int v_curr.minor, PfArg.int v_curr.patch]]⟩
  | lwesp_evt_type_t.LWESP_EVT_INIT_FINISH =>
    ⟨lwespr_t.lwespOK, s, [Event.printf "Library initialized!\r\n" []]⟩
  | lwesp_evt_type_t.LWESP_EVT_RESET_DETECTED =>
    ⟨lwespr_t.lwespOK, s, [Event.printf "Device reset detected!\r\n" []]⟩
  | lwesp_evt_type_t.LWESP_EVT_WIFI_IP_ACQUIRED =>
    let jr := d.lwesp_sta_is_joined s
    if jr.1 then
      ⟨lwespr_t.lwespOK, jr.2,
        [Event.lwesp_sta_is_joined true, Event.tx_thread_create "Netconn Thread" NETCONN_STACK_SIZE]⟩
    else
      ⟨lwespr_t.lwespOK, jr.2, [Event.lwesp_sta_is_joined false]⟩
  | lwesp_evt_type_t.LWESP_EVT_OTHER _ => ⟨lwespr_t.lwespOK, s, []⟩

/-- The `while (1)` loop of `user_thread_entry`, for at most `ticks` iterations; `cfuel`
bounds each connector call.  The result is `false` when a connector call did not return
within its bound, so that the supervisor is still blocked in it. -/
def user_thread_loop {σ : Type} (d : Driver σ) (ap_list : List ap_entry_t) (cfuel : Nat) :
    Nat → State σ → Run (State σ) Bool
  | 0, st => ⟨true, st, []⟩
  | ticks + 1, st =>
    let jr := d.lwesp_sta_is_joined st.drv
    let st1 : State σ := { st with drv := jr.2 }
    if jr.1 then
      let r := user_thread_loop d ap_list cfuel ticks st1
      ⟨r.ret, r.st,
        Event.lwesp_sta_is_joined true :: Event.tx_thread_sleep 1000 :: r.trace⟩
    else
      let c := connect_to_preferred_access_point d ap_list 1 cfuel st1
      match c.ret with
      | none => ⟨false, c.st, Event.lwesp_sta_is_joined false :: c.trace⟩
      | some _ =>
        let r := user_thread_loop d ap_list cfuel ticks c.st
        ⟨r.ret, r.st,
          Event.lwesp_sta_is_joined false :: c.trace ++ [Event.tx_thread_sleep 1000] ++ r.trace⟩

/-- Source `user_thread_entry`: driver start-up, then the supervisor loop. -/
def user_thread_entry {σ : Type} (d : Driver σ) (ap_list : List ap_entry_t) (cfuel ticks : Nat)
    (st : State σ) : Run (State σ) Bool :=
  let ir := d.lwesp_init st.drv
  let r := user_thread_loop d ap_list cfuel ticks { st with drv := ir.2 }
  ⟨r.ret, r.st,
    [Event.printf "Initializing LwESP\r\n" [], Event.lwesp_init ir.1,
      Event.printf (if ir.1 = lwespr_t.lwespOK then "LwESP initialized!\r\n"
        else "Cannot initialize LwESP!\r\n") []] ++ r.trace⟩

/-! ## Trace observations -/

/-- The `lwesp_sta_join` calls of a trace, in order: SSID, passphrase, result. -/
def join_calls : List Event → List (String × String × lwespr_t)
  | [] => []
  | Event.lwesp_sta_join ssid pass r :: t => (ssid, pass, r) :: join_calls t
  | _ :: t => join_calls t

/-- The `lwesp_sta_list_ap` calls of a trace, in order: result and stored count. -/
def scan_calls : List Event → List (lwespr_t × Nat)
  | [] => []
  | Event.lwesp_sta_list_ap r n :: t => (r, n) :: scan_calls t
  | _ :: t => scan_calls t

/-- The thread-creation requests of a trace. -/
def spawn_calls : List Event → List (String × Nat)
  | [] => []
  | Event.tx_thread_create name sz :: t => (name, sz) :: spawn_calls t
  | _ :: t => spawn_calls t

/-- Whether an effect is a call into the WiFi driver. -/
def is_driver_call : Event → Bool
  | Event.lwesp_init _ => true
  | Event.lwesp_sta_is_joined _ => true
  | Event.lwesp_sta_has_ip _ => true
  | Event.lwesp_sta_list_ap _ _ => true
  | Event.lwesp_sta_join _ _ _ => true
  | Event.lwesp_sta_copy_ip => true
  | Event.lwesp_get_min_at_fw_version => true
  | Event.lwesp_get_current_at_fw_version => true
  | _ => false

/-- Every `read_aps i` of a trace has `i` below the count stored by the most recent scan
(`bound` before the first scan of the trace; a failed scan leaves nothing readable) and
below the capacity of the buffer. -/
def reads_in_bounds : Nat → List Event → Bool
  | _, [] => true
  | bound, Event.read_aps i :: t =>
    (decide (i < bound) && decide (i < LWESP_ARRAYSIZE_aps)) && reads_in_bounds bound t
  | _, Event.lwesp_sta_list_ap r n :: t =>
    reads_in_bounds (if r = lwespr_t.lwespOK then n else 0) t
  | bound, _ :: t => reads_in_bounds bound t

/-! ## A scripted driver, to run the program on concrete inputs -/

/-- Scripted responses, consumed front to back, one list per driver call. -/
structure Script where
  has_ip : List Bool
  joined : List Bool
  scans : List (lwespr_t × List lwesp_ap_t × Nat)
  joins : List lwespr_t

/-- The driver that answers from a `Script`.  An exhausted script answers "no IP", "not
joined", "device absent" and "join failed". -/
def scripted : Driver Script where
  LWESP_CFG_IPV6 := false
  lwesp_init s := (lwespr_t.lwespOK, s)
  lwesp_sta_is_joined s := (s.joined.headD false, { s with joined := s.joined.tail })
  lwesp_sta_has_ip s := (s.has_ip.headD false, { s with has_ip := s.has_ip.tail })
  lwesp_sta_list_ap s aps _ :=
    match s.scans with
    | [] => (lwespr_t.lwespERRNODEVICE, aps, 0, s)
    | (r, found, n) :: rest => (r, found, n, { s with scans := rest })
  lwesp_sta_join _ _ s := (s.joins.headD lwespr_t.lwespERR, { s with joins := s.joins.tail })
  lwesp_sta_copy_ip s := (⟨false, [192, 168, 1, 2], []⟩, 1, s)
  lwesp_get_min_at_fw_version _ := ⟨1, 2, 0⟩
  lwesp_get_current_at_fw_version _ := ⟨1, 1, 0⟩

/-- Initial program state over a script: empty buffer, zero count. -/
def start (sc : Script) : State Script := ⟨sc, [], 0⟩

/-- Preference list of the ordering scenario. -/
def prefs_AB : List ap_entry_t := [⟨"A", "x"⟩, ⟨"B", "y"⟩]

/-- Discovery set of the ordering scenario: `B` is discovered before `A`. -/
def found_BA : List lwesp_ap_t := [⟨"B", 3, -50⟩, ⟨"A", 6, -40⟩]

/-- Effects that the scan-and-match part of a cycle can produce. -/
def is_cycle_event : Event → Bool
  | Event.printf _ _ => true
  | Event.read_aps _ => true
  | Event.lwesp_sta_join _ _ _ => true
  | Event.lwesp_sta_copy_ip => true
  | _ => false


/-- SSID and passphrase of each `lwesp_sta_join` call of a trace, in order. -/
def join_creds (t : List Event) : List (String × String) :=
  (join_calls t).map fun c => (c.1, c.2.1)

/-- Result of each `lwesp_sta_join` call of a trace, in order. -/
def join_results (t : List Event) : List lwespr_t :=
  (join_calls t).map fun c => c.2.2

/-- Candidate joins for one preferred entry: one per visited index whose discovered SSID is
string-equal to the entry's SSID. -/
def entry_candidates (aps : List lwesp_ap_t) (is : List Nat) (e : ap_entry_t) :
    List (String × String) :=
  (is.filter fun i => decide ((aps_at aps i).ssid = e.ssid)).map fun _ => (e.ssid, e.pass)

/-- Candidate joins of one cycle, in priority-then-discovery order: one per pair of a
preferred entry and a discovered access point (index below `apf`) that carries its SSID. -/
def candidates (ap_list : List ap_entry_t) (aps : List lwesp_ap_t) (apf : Nat) :
    List (String × String) :=
  ap_list.flatMap (entry_candidates aps (List.range apf))

/-- What the scan of the first loop iteration from `st` returns: the driver is asked after
the `lwesp_sta_has_ip` query, with the global buffer and its capacity. -/
def first_scan {σ : Type} (d : Driver σ) (st : State σ) :
    lwespr_t × List lwesp_ap_t × Nat × σ :=
  d.lwesp_sta_list_ap (d.lwesp_sta_has_ip st.drv).2 st.aps LWESP_ARRAYSIZE_aps

/-- Program state right after that scan: the globals hold what the driver stored. -/
def after_scan {σ : Type} (d : Driver σ) (st : State σ) : State σ :=
  ⟨(first_scan d st).2.2.2, (first_scan d st).2.1, (first_scan d st).2.2.1⟩

/-- Effects at the start of an iteration that reaches the scan. -/
def scan_head (r : lwespr_t) (n : Nat) : List Event :=
  [Event.lwesp_sta_has_ip false, Event.printf "Scanning access points...\r\n" [],
    Event.lwesp_sta_list_ap r n]

/-- The log line of a device-absent scan. -/
def not_present_log : Event := Event.printf "Device is not present!\r\n" []

/-- The log line of any other scan failure. -/
def scan_error_log : Event := Event.printf "Error on WIFI scan procedure!\r\n" []

/-- The log line of a cycle in which no preferred SSID was discovered. -/
def no_candidates_log : Event := Event.printf no_candidates_msg []

/-- A driver without state: the station never has an IP address, every scan discovers
`found_BA`, every join succeeds. -/
def steady : Driver Unit where
  LWESP_CFG_IPV6 := false
  lwesp_init s := (lwespr_t.lwespOK, s)
  lwesp_sta_is_joined s := (false, s)
  lwesp_sta_has_ip s := (false, s)
  lwesp_sta_list_ap s _ _ := (lwespr_t.lwespOK, found_BA, 2, s)
  lwesp_sta_join _ _ s := (lwespr_t.lwespOK, s)
  lwesp_sta_copy_ip s := (⟨false, [192, 168, 1, 2], []⟩, 1, s)
  lwesp_get_min_at_fw_version _ := ⟨1, 2, 0⟩
  lwesp_get_current_at_fw_version _ := ⟨1, 1, 0⟩

/-- Reference handler, following the specification's words: the status returned to the
driver is always "accepted"; the dependent network-client task is requested once when the
event is IP-acquired and the driver reports the station joined, and not at all otherwise.
The result is the status and the list of requested tasks. -/
def reference_handler (evt : lwesp_evt_type_t) (joined : Bool) :
    lwespr_t × List (String × Nat) :=
  (lwespr_t.lwespOK,
    if evt = lwesp_evt_type_t.LWESP_EVT_WIFI_IP_ACQUIRED ∧ joined = true then
      [("Netconn Thread", NETCONN_STACK_SIZE)]
    else [])

/-- Script of the ordering scenario: one scan discovering `found_BA`, joins succeed. -/
def script_BA : Script := ⟨[], [], [(lwespr_t.lwespOK, found_BA, 2)], [lwespr_t.lwespOK]⟩

/-- Script with an IP address already assigned. -/
def script_has_ip : Script := ⟨[true], [true], [], []⟩

/-- Script whose first scan reports the device absent. -/
def script_absent : Script := ⟨[], [], [(lwespr_t.lwespERRNODEVICE, [], 0)], []⟩

/-- Script with one scan that discovers nothing. -/
def script_nothing : Script := ⟨[], [], [(lwespr_t.lwespOK, [], 0)], []⟩

/-- Script with an empty first scan and a second scan reporting the device absent. -/
def script_retry_absent : Script :=
  ⟨[], [], [(lwespr_t.lwespOK, [], 0), (lwespr_t.lwespERRNODEVICE, [], 0)], []⟩

/-- Script of a supervisor that finds the station joined. -/
def script_joined : Script := ⟨[], [true], [], []⟩

/-- Script whose first scan fails with a code other than device-absent. -/
def script_scan_error : Script := ⟨[], [], [(lwespr_t.lwespOTHER 5, [], 0)], []⟩

/-- Script with one scan that discovers `found_BA`; every join fails. -/
def script_BA_refused : Script := ⟨[], [], [(lwespr_t.lwespOK, found_BA, 2)], []⟩


/-! ## Lemmas on traces -/

theorem join_calls_append (a b : List Event) :
    join_calls (a ++ b) = join_calls a ++ join_calls b := by
  induction a with
  | nil => rfl
  | cons x t ih => cases x <;> simp [join_calls, ih]

theorem scan_calls_append (a b : List Event) :
    scan_calls (a ++ b) = scan_calls a ++ scan_calls b := by
  induction a with
  | nil => rfl
  | cons x t ih => cases x <;> simp [scan_calls, ih]

theorem mem_join_calls {t : List Event} {c : String × String × lwespr_t} :
    c ∈ join_calls t ↔ Event.lwesp_sta_join c.1 c.2.1 c.2.2 ∈ t := by
  induction t with
  | nil => simp [join_calls]
  | cons x t ih =>
    obtain ⟨a, b, r⟩ := c
    cases x <;> simp_all [join_calls]

theorem scan_calls_of_cycle {t : List Event} (h : ∀ ev ∈ t, is_cycle_event ev = true) :
    scan_calls t = [] := by
  induction t with
  | nil => rfl
  | cons x t ih =>
    have hx := h x (List.mem_cons_self _ _)
    have ht := ih (fun ev hev => h ev (List.mem_cons_of_mem _ hev))
    cases x <;> simp_all [scan_calls, is_cycle_event]

theorem utils_print_ip_cycle (c : Bool) (a : String) (ip : lwesp_ip_t) (b : String) :
    ∀ ev ∈ utils_print_ip c a ip b, is_cycle_event ev = true := by
  intro ev hev
  unfold utils_print_ip at hev
  split at hev <;> simp at hev <;> rcases hev with h | h | h <;> subst h <;> rfl

theorem log_loop_cycle (aps : List lwesp_ap_t) (is : List Nat) :
    ∀ ev ∈ log_loop aps is, is_cycle_event ev = true := by
  induction is with
  | nil => simp [log_loop]
  | cons i is ih =>
    intro ev hev
    simp only [log_loop, List.mem_append, List.mem_cons, List.mem_singleton, List.not_mem_nil,
      or_false] at hev
    rcases hev with (h | h | h | h) | h
    · subst h; rfl
    · subst h; rfl
    · subst h; rfl
    · subst h; rfl
    · exact ih ev h

theorem log_loop_reads (aps : List lwesp_ap_t) (is : List Nat) (i : Nat)
    (h : Event.read_aps i ∈ log_loop aps is) : i ∈ is := by
  induction is with
  | nil => simp [log_loop] at h
  | cons k is ih =>
    simp only [log_loop, List.mem_append, List.mem_cons, List.mem_singleton, List.not_mem_nil,
      or_false] at h
    rcases h with (h | h | h | h) | h
    · simp at h; simp [h]
    · simp at h; simp [h]
    · simp at h; simp [h]
    · simp at h
    · exact List.mem_cons_of_mem _ (ih h)
/-! ## The inner loop -/

theorem inner_loop_globals {σ : Type} (d : Driver σ) (e : ap_entry_t) (is : List Nat) :
    ∀ (st : State σ) (tried : Nat),
      (inner_loop d e is st tried).st.aps = st.aps ∧
      (inner_loop d e is st tried).st.apf = st.apf := by
  induction is with
  | nil => intro st tried; simp [inner_loop]
  | cons i is ih =>
    intro st tried
    simp only [inner_loop]
    split
    · split
      · simp
      · exact ih _ _
    · exact ih _ _

theorem inner_loop_cycle {σ : Type} (d : Driver σ) (e : ap_entry_t) (is : List Nat) :
    ∀ (st : State σ) (tried : Nat),
      ∀ ev ∈ (inner_loop d e is st tried).trace, is_cycle_event ev = true := by
  induction is with
  | nil => intro st tried; simp [inner_loop]
  | cons i is ih =>
    intro st tried ev hev
    simp only [inner_loop] at hev
    split at hev
    · split at hev
      · simp only [List.mem_append, List.mem_cons, List.mem_singleton, List.not_mem_nil,
          or_false] at hev
        rcases hev with (((h | h | h) | h | h) | h) | h
        · subst h; rfl
        · subst h; rfl
        · subst h; rfl
        · subst h; rfl
        · subst h; rfl
        · exact utils_print_ip_cycle _ _ _ _ ev h
        · subst h; rfl
      · simp only [List.mem_append, List.mem_cons, List.mem_singleton, List.not_mem_nil,
          or_false] at hev
        rcases hev with ((h | h | h) | h) | h
        · subst h; rfl
        · subst h; rfl
        · subst h; rfl
        · subst h; rfl
        · exact ih _ _ ev h
    · simp only [List.mem_cons] at hev
      rcases hev with h | h
      · subst h; rfl
      · exact ih _ _ ev h

theorem utils_print_ip_no_read (c : Bool) (a : String) (ip : lwesp_ip_t) (b : String) (i : Nat) :
    Event.read_aps i ∉ utils_print_ip c a ip b := by
  unfold utils_print_ip
  split <;> simp

theorem utils_print_ip_joins (c : Bool) (a : String) (ip : lwesp_ip_t) (b : String) :
    join_calls (utils_print_ip c a ip b) = [] := by
  unfold utils_print_ip
  split <;> simp [join_calls]

theorem inner_loop_reads {σ : Type} (d : Driver σ) (e : ap_entry_t) (is : List Nat) :
    ∀ (st : State σ) (tried : Nat) (i : Nat),
      Event.read_aps i ∈ (inner_loop d e is st tried).trace → i ∈ is := by
  induction is with
  | nil => intro st tried i; simp [inner_loop]
  | cons k is ih =>
    intro st tried i hev
    simp only [inner_loop] at hev
    split at hev
    · split at hev
      · have := utils_print_ip_no_read d.LWESP_CFG_IPV6 "Station IP address: "
          (d.lwesp_sta_copy_ip (d.lwesp_sta_join e.ssid e.pass st.drv).2).1 "\r\n" i
        simp [this] at hev
        simp [hev]
      · simp at hev
        rcases hev with h | h
        · simp [h]
        · exact List.mem_cons_of_mem _ (ih _ _ i h)
    · simp at hev
      rcases hev with h | h
      · simp [h]
      · exact List.mem_cons_of_mem _ (ih _ _ i h)
theorem join_creds_append (a b : List Event) :
    join_creds (a ++ b) = join_creds a ++ join_creds b := by
  simp [join_creds, join_calls_append]

theorem join_results_append (a b : List Event) :
    join_results (a ++ b) = join_results a ++ join_results b := by
  simp [join_results, join_calls_append]

/-- Shape of the join results of a loop run: every join failed and the loop ran to its end,
or the last join succeeded, every earlier one failed, and the loop returned `lwespOK`. -/
theorem inner_loop_results {σ : Type} (d : Driver σ) (e : ap_entry_t) (is : List Nat) :
    ∀ (st : State σ) (tried : Nat),
      ((inner_loop d e is st tried).ret.1 = none ∧
        ∀ r ∈ join_results (inner_loop d e is st tried).trace, r ≠ lwespr_t.lwespOK) ∨
      ((inner_loop d e is st tried).ret.1 = some lwespr_t.lwespOK ∧
        ∃ pre, join_results (inner_loop d e is st tried).trace = pre ++ [lwespr_t.lwespOK] ∧
          ∀ r ∈ pre, r ≠ lwespr_t.lwespOK) := by
  induction is with
  | nil => intro st tried; simp [inner_loop, join_results, join_calls]
  | cons i is ih =>
    intro st tried
    simp only [inner_loop]
    split
    · split
      · rename_i h1 h2
        right
        refine ⟨rfl, [], ?_, by simp⟩
        simp only [join_results, join_calls_append, utils_print_ip_joins]
        simp [join_calls, h2]
      · rename_i h1 h2
        rcases ih { st with drv := (d.lwesp_sta_join e.ssid e.pass st.drv).2 } 1 with
          ⟨hn, hall⟩ | ⟨hs, pre, hpre, hall⟩
        · left
          refine ⟨hn, ?_⟩
          intro r hr
          simp [join_results, join_calls, join_calls_append] at hr
          rcases hr with hr | hr
          · rw [hr]; exact h2
          · apply hall; simp [join_results]; exact hr
        · right
          refine ⟨hs, (d.lwesp_sta_join e.ssid e.pass st.drv).1 :: pre, ?_, ?_⟩
          · simp [join_results, join_calls, join_calls_append] at hpre ⊢
            exact hpre
          · intro r hr
            simp at hr
            rcases hr with hr | hr
            · rw [hr]; exact h2
            · exact hall r hr
    · rcases ih st tried with ⟨hn, hall⟩ | ⟨hs, pre, hpre, hall⟩
      · left
        refine ⟨hn, ?_⟩
        simpa [join_results, join_calls] using hall
      · right
        exact ⟨hs, pre, by simpa [join_results, join_calls] using hpre, hall⟩

/-- The joins of the inner loop are candidate joins of its entry, in order: all of them when
the loop runs to its end. -/
theorem inner_loop_creds {σ : Type} (d : Driver σ) (e : ap_entry_t) (is : List Nat) :
    ∀ (st : State σ) (tried : Nat),
      (∃ rest, entry_candidates st.aps is e =
        join_creds (inner_loop d e is st tried).trace ++ rest) ∧
      ((inner_loop d e is st tried).ret.1 = none →
        join_creds (inner_loop d e is st tried).trace = entry_candidates st.aps is e) := by
  induction is with
  | nil => intro st tried; simp [inner_loop, join_creds, join_calls, entry_candidates]
  | cons i is ih =>
    intro st tried
    simp only [inner_loop]
    split
    · rename_i h1
      split
      · refine ⟨⟨entry_candidates st.aps is e, ?_⟩, by simp⟩
        simp only [join_creds, join_calls_append, utils_print_ip_joins]
        simp [join_calls, entry_candidates, h1]
      · obtain ⟨⟨rest, hrest⟩, hfull⟩ :=
          ih { st with drv := (d.lwesp_sta_join e.ssid e.pass st.drv).2 } 1
        refine ⟨⟨rest, ?_⟩, ?_⟩
        · simp [join_creds, join_calls, join_calls_append, entry_candidates, h1] at hrest ⊢
          exact hrest
        · intro hn
          have := hfull hn
          simp [join_creds, join_calls, join_calls_append, entry_candidates, h1] at this ⊢
          exact this
    · rename_i h1
      obtain ⟨⟨rest, hrest⟩, hfull⟩ := ih st tried
      refine ⟨⟨rest, ?_⟩, ?_⟩
      · simp [join_creds, join_calls, entry_candidates, h1] at hrest ⊢
        exact hrest
      · intro hn
        have := hfull hn
        simp [join_creds, join_calls, entry_candidates, h1] at this ⊢
        exact this

/-- The variable `tried` after the inner loop: set to 1 exactly when a join was issued. -/
theorem inner_loop_tried {σ : Type} (d : Driver σ) (e : ap_entry_t) (is : List Nat) :
    ∀ (st : State σ) (tried : Nat),
      (inner_loop d e is st tried).ret.2 =
        if join_calls (inner_loop d e is st tried).trace = [] then tried else 1 := by
  induction is with
  | nil => intro st tried; simp [inner_loop, join_calls]
  | cons i is ih =>
    intro st tried
    simp only [inner_loop]
    split
    · split
      · simp only [join_calls_append, utils_print_ip_joins]
        simp [join_calls]
      · rw [ih]; simp [join_calls, join_calls_append]
    · rw [ih]; simp [join_calls]
/-! ## The outer loop -/

theorem outer_loop_globals {σ : Type} (d : Driver σ) (es : List ap_entry_t) :
    ∀ (st : State σ) (tried : Nat),
      (outer_loop d es st tried).st.aps = st.aps ∧
      (outer_loop d es st tried).st.apf = st.apf := by
  induction es with
  | nil => intro st tried; simp [outer_loop]
  | cons e es ih =>
    intro st tried
    have hg := inner_loop_globals d e (List.range st.apf) st tried
    simp only [outer_loop]
    split
    · exact hg
    · obtain ⟨h1, h2⟩ := ih (inner_loop d e (List.range st.apf) st tried).st
        (inner_loop d e (List.range st.apf) st tried).ret.2
      exact ⟨h1.trans hg.1, h2.trans hg.2⟩

theorem outer_loop_cycle {σ : Type} (d : Driver σ) (es : List ap_entry_t) :
    ∀ (st : State σ) (tried : Nat),
      ∀ ev ∈ (outer_loop d es st tried).trace, is_cycle_event ev = true := by
  induction es with
  | nil => intro st tried; simp [outer_loop]
  | cons e es ih =>
    intro st tried ev hev
    simp only [outer_loop] at hev
    split at hev
    · exact inner_loop_cycle d e _ st tried ev hev
    · rcases List.mem_append.1 hev with h | h
      · exact inner_loop_cycle d e _ st tried ev h
      · exact ih _ _ ev h

theorem outer_loop_reads {σ : Type} (d : Driver σ) (es : List ap_entry_t) :
    ∀ (st : State σ) (tried : Nat) (i : Nat),
      Event.read_aps i ∈ (outer_loop d es st tried).trace → i < st.apf := by
  induction es with
  | nil => intro st tried i; simp [outer_loop]
  | cons e es ih =>
    intro st tried i hev
    simp only [outer_loop] at hev
    split at hev
    · exact List.mem_range.1 (inner_loop_reads d e _ st tried i hev)
    · rcases List.mem_append.1 hev with h | h
      · exact List.mem_range.1 (inner_loop_reads d e _ st tried i h)
      · have := ih _ _ i h
        rwa [(inner_loop_globals d e (List.range st.apf) st tried).2] at this

theorem outer_loop_results {σ : Type} (d : Driver σ) (es : List ap_entry_t) :
    ∀ (st : State σ) (tried : Nat),
      ((outer_loop d es st tried).ret.1 = none ∧
        ∀ r ∈ join_results (outer_loop d es st tried).trace, r ≠ lwespr_t.lwespOK) ∨
      ((outer_loop d es st tried).ret.1 = some lwespr_t.lwespOK ∧
        ∃ pre, join_results (outer_loop d es st tried).trace = pre ++ [lwespr_t.lwespOK] ∧
          ∀ r ∈ pre, r ≠ lwespr_t.lwespOK) := by
  induction es with
  | nil => intro st tried; simp [outer_loop, join_results, join_calls]
  | cons e es ih =>
    intro st tried
    have hi := inner_loop_results d e (List.range st.apf) st tried
    simp only [outer_loop]
    split
    · rename_i v hv
      rcases hi with ⟨hn, _⟩ | ⟨hs, hpre⟩
      · rw [hn] at hv; cases hv
      · right
        rw [hs] at hv
        cases hv
        exact ⟨rfl, hpre⟩
    · rename_i hv
      rcases hi with ⟨_, hall⟩ | ⟨hs, _⟩
      · rcases ih (inner_loop d e (List.range st.apf) st tried).st
          (inner_loop d e (List.range st.apf) st tried).ret.2 with ⟨hn, hall2⟩ | ⟨hs, pre, hpre, hall2⟩
        · left
          refine ⟨hn, ?_⟩
          intro r hr
          rw [join_results_append] at hr
          rcases List.mem_append.1 hr with h | h
          · exact hall r h
          · exact hall2 r h
        · right
          refine ⟨hs, join_results (inner_loop d e (List.range st.apf) st tried).trace ++ pre,
            ?_, ?_⟩
          · simp only [join_results_append, hpre, List.append_assoc]
          · intro r hr
            rcases List.mem_append.1 hr with h | h
            · exact hall r h
            · exact hall2 r h
      · rw [hs] at hv; cases hv

theorem outer_loop_creds {σ : Type} (d : Driver σ) (es : List ap_entry_t) :
    ∀ (st : State σ) (tried : Nat),
      (∃ rest, candidates es st.aps st.apf =
        join_creds (outer_loop d es st tried).trace ++ rest) ∧
      ((outer_loop d es st tried).ret.1 = none →
        join_creds (outer_loop d es st tried).trace = candidates es st.aps st.apf) := by
  induction es with
  | nil => intro st tried; simp [outer_loop, join_creds, join_calls, candidates]
  | cons e es ih =>
    intro st tried
    obtain ⟨⟨rest1, hrest1⟩, hfull1⟩ := inner_loop_creds d e (List.range st.apf) st tried
    obtain ⟨hga, hgf⟩ := inner_loop_globals d e (List.range st.apf) st tried
    have hc : candidates (e :: es) st.aps st.apf =
        entry_candidates st.aps (List.range st.apf) e ++ candidates es st.aps st.apf := by
      simp [candidates]
    simp only [outer_loop]
    split
    · rename_i v hv
      refine ⟨⟨rest1 ++ candidates es st.aps st.apf, ?_⟩, ?_⟩
      · rw [hc, hrest1, List.append_assoc]
      · intro h; cases h
    · rename_i hv
      obtain ⟨⟨rest2, hrest2⟩, hfull2⟩ := ih (inner_loop d e (List.range st.apf) st tried).st
        (inner_loop d e (List.range st.apf) st tried).ret.2
      rw [hga, hgf] at hrest2 hfull2
      refine ⟨⟨rest2, ?_⟩, ?_⟩
      · rw [hc, join_creds_append, ← hfull1 hv, hrest2, List.append_assoc]
      · intro hn
        rw [hc, join_creds_append, hfull1 hv, hfull2 hn]

theorem outer_loop_cons_some {σ : Type} (d : Driver σ) (e : ap_entry_t) (es : List ap_entry_t)
    (st : State σ) (tried : Nat) (v : lwespr_t)
    (h : (inner_loop d e (List.range st.apf) st tried).ret.1 = some v) :
    outer_loop d (e :: es) st tried =
      ⟨(some v, (inner_loop d e (List.range st.apf) st tried).ret.2),
        (inner_loop d e (List.range st.apf) st tried).st,
        (inner_loop d e (List.range st.apf) st tried).trace⟩ := by
  simp only [outer_loop, h]

theorem outer_loop_cons_none {σ : Type} (d : Driver σ) (e : ap_entry_t) (es : List ap_entry_t)
    (st : State σ) (tried : Nat)
    (h : (inner_loop d e (List.range st.apf) st tried).ret.1 = none) :
    outer_loop d (e :: es) st tried =
      ⟨(outer_loop d es (inner_loop d e (List.range st.apf) st tried).st
          (inner_loop d e (List.range st.apf) st tried).ret.2).ret,
        (outer_loop d es (inner_loop d e (List.range st.apf) st tried).st
          (inner_loop d e (List.range st.apf) st tried).ret.2).st,
        (inner_loop d e (List.range st.apf) st tried).trace ++
          (outer_loop d es (inner_loop d e (List.range st.apf) st tried).st
            (inner_loop d e (List.range st.apf) st tried).ret.2).trace⟩ := by
  simp only [outer_loop, h]

theorem outer_loop_tried {σ : Type} (d : Driver σ) (es : List ap_entry_t) :
    ∀ (st : State σ) (tried : Nat),
      (outer_loop d es st tried).ret.2 =
        if join_calls (outer_loop d es st tried).trace = [] then tried else 1 := by
  induction es with
  | nil => intro st tried; simp [outer_loop, join_calls]
  | cons e es ih =>
    intro st tried
    have hi := inner_loop_tried d e (List.range st.apf) st tried
    cases hv : (inner_loop d e (List.range st.apf) st tried).ret.1 with
    | some v =>
      rw [outer_loop_cons_some d e es st tried v hv]
      exact hi
    | none =>
      rw [outer_loop_cons_none d e es st tried hv]
      simp only []
      rw [ih, hi, join_calls_append]
      by_cases h1 : join_calls (inner_loop d e (List.range st.apf) st tried).trace = [] <;>
        by_cases h2 : join_calls (outer_loop d es (inner_loop d e (List.range st.apf) st tried).st
          (inner_loop d e (List.range st.apf) st tried).ret.2).trace = [] <;> simp [h1, h2]
/-! ## One iteration of the connector loop -/

theorem connect_body_has_ip {σ : Type} (d : Driver σ) (al : List ap_entry_t) (u : Nat)
    (st : State σ) (hip : (d.lwesp_sta_has_ip st.drv).1 = true) :
    connect_body d al u st =
      ⟨Flow.ret lwespr_t.lwespOK, { st with drv := (d.lwesp_sta_has_ip st.drv).2 },
        [Event.lwesp_sta_has_ip true]⟩ := by
  simp [connect_body, hip]

theorem connect_body_nodev {σ : Type} (d : Driver σ) (al : List ap_entry_t) (u : Nat)
    (st : State σ) (hip : (d.lwesp_sta_has_ip st.drv).1 = false)
    (hs : (first_scan d st).1 = lwespr_t.lwespERRNODEVICE) :
    connect_body d al u st =
      ⟨Flow.brk, after_scan d st,
        scan_head lwespr_t.lwespERRNODEVICE (first_scan d st).2.2.1 ++ [not_present_log]⟩ := by
  unfold first_scan at hs
  simp [connect_body, hip, hs, after_scan, first_scan, scan_head, not_present_log]

theorem connect_body_scan_error {σ : Type} (d : Driver σ) (al : List ap_entry_t) (u : Nat)
    (st : State σ) (hip : (d.lwesp_sta_has_ip st.drv).1 = false)
    (hs1 : (first_scan d st).1 ≠ lwespr_t.lwespOK)
    (hs2 : (first_scan d st).1 ≠ lwespr_t.lwespERRNODEVICE) :
    connect_body d al u st =
      ⟨if u = 0 then Flow.brk else Flow.cont, after_scan d st,
        scan_head (first_scan d st).1 (first_scan d st).2.2.1 ++ [scan_error_log]⟩ := by
  unfold first_scan at hs1 hs2
  by_cases hu : u = 0 <;>
    simp [connect_body, hip, hs1, hs2, hu, after_scan, first_scan, scan_head, scan_error_log]

theorem connect_body_joined {σ : Type} (d : Driver σ) (al : List ap_entry_t) (u : Nat)
    (st : State σ) (hip : (d.lwesp_sta_has_ip st.drv).1 = false)
    (hs : (first_scan d st).1 = lwespr_t.lwespOK) (v : lwespr_t)
    (hm : (outer_loop d al (after_scan d st) 0).ret.1 = some v) :
    connect_body d al u st =
      ⟨Flow.ret v, (outer_loop d al (after_scan d st) 0).st,
        scan_head lwespr_t.lwespOK (after_scan d st).apf ++
          log_loop (after_scan d st).aps (List.range (after_scan d st).apf) ++
          (outer_loop d al (after_scan d st) 0).trace⟩ := by
  unfold first_scan at hs
  unfold after_scan first_scan at hm
  simp [connect_body, hip, hs, hm, after_scan, first_scan, scan_head]

theorem connect_body_not_joined {σ : Type} (d : Driver σ) (al : List ap_entry_t) (u : Nat)
    (st : State σ) (hip : (d.lwesp_sta_has_ip st.drv).1 = false)
    (hs : (first_scan d st).1 = lwespr_t.lwespOK)
    (hm : (outer_loop d al (after_scan d st) 0).ret.1 = none) :
    connect_body d al u st =
      ⟨if u = 0 then Flow.brk else Flow.cont, (outer_loop d al (after_scan d st) 0).st,
        scan_head lwespr_t.lwespOK (after_scan d st).apf ++
          log_loop (after_scan d st).aps (List.range (after_scan d st).apf) ++
          (outer_loop d al (after_scan d st) 0).trace ++
          (if (outer_loop d al (after_scan d st) 0).ret.2 = 0 then [no_candidates_log]
            else [])⟩ := by
  unfold first_scan at hs
  unfold after_scan first_scan at hm
  by_cases hu : u = 0 <;>
    simp [connect_body, hip, hs, hm, hu, after_scan, first_scan, scan_head, no_candidates_log]

theorem connect_succ_ret {σ : Type} (d : Driver σ) (al : List ap_entry_t) (u fuel : Nat)
    (st : State σ) (v : lwespr_t) (h : (connect_body d al u st).ret = Flow.ret v) :
    connect_to_preferred_access_point d al u (fuel + 1) st =
      ⟨some v, (connect_body d al u st).st, (connect_body d al u st).trace⟩ := by
  simp only [connect_to_preferred_access_point, h]

theorem connect_succ_brk {σ : Type} (d : Driver σ) (al : List ap_entry_t) (u fuel : Nat)
    (st : State σ) (h : (connect_body d al u st).ret = Flow.brk) :
    connect_to_preferred_access_point d al u (fuel + 1) st =
      ⟨some lwespr_t.lwespERR, (connect_body d al u st).st, (connect_body d al u st).trace⟩ := by
  simp only [connect_to_preferred_access_point, h]

theorem connect_succ_cont {σ : Type} (d : Driver σ) (al : List ap_entry_t) (u fuel : Nat)
    (st : State σ) (h : (connect_body d al u st).ret = Flow.cont) :
    connect_to_preferred_access_point d al u (fuel + 1) st =
      ⟨(connect_to_preferred_access_point d al u fuel (connect_body d al u st).st).ret,
        (connect_to_preferred_access_point d al u fuel (connect_body d al u st).st).st,
        (connect_body d al u st).trace ++
          (connect_to_preferred_access_point d al u fuel (connect_body d al u st).st).trace⟩ := by
  simp only [connect_to_preferred_access_point, h]
theorem split_of_not_mem {α : Type} {l1 l2 pre post : List α} {x : α}
    (h : l1 ++ l2 = pre ++ x :: post) (hx : x ∉ l1) :
    ∃ pre', pre = l1 ++ pre' ∧ l2 = pre' ++ x :: post := by
  rcases List.append_eq_append_iff.1 h with ⟨a, h1, h2⟩ | ⟨c, h1, h2⟩
  · exact ⟨a, h1, h2⟩
  · cases c with
    | nil => exact ⟨[], by simpa using h1.symm, by simpa using h2.symm⟩
    | cons y c =>
      simp only [List.cons_append, List.cons.injEq] at h2
      exact absurd (by rw [h1, h2.1]; simp) hx

theorem join_ok_mem_of_results {t : List Event} {pre : List lwespr_t}
    (h : join_results t = pre ++ [lwespr_t.lwespOK]) :
    ∃ ssid pass, Event.lwesp_sta_join ssid pass lwespr_t.lwespOK ∈ t := by
  have hmem : lwespr_t.lwespOK ∈ join_results t := by rw [h]; simp
  simp only [join_results, List.mem_map] at hmem
  obtain ⟨c, hc, hr⟩ := hmem
  refine ⟨c.1, c.2.1, ?_⟩
  rw [← hr]
  exact mem_join_calls.1 hc

theorem no_join_ok_of_results {t : List Event}
    (h : ∀ r ∈ join_results t, r ≠ lwespr_t.lwespOK) (ssid pass : String) :
    Event.lwesp_sta_join ssid pass lwespr_t.lwespOK ∉ t := by
  intro hmem
  have hc : (ssid, pass, lwespr_t.lwespOK) ∈ join_calls t := mem_join_calls.2 hmem
  exact h lwespr_t.lwespOK (by simp only [join_results, List.mem_map]; exact ⟨_, hc, rfl⟩) rfl

/-- Summary of one iteration that reaches the scan. -/
theorem connect_body_shape {σ : Type} (d : Driver σ) (al : List ap_entry_t) (u : Nat)
    (st : State σ) (hip : (d.lwesp_sta_has_ip st.drv).1 = false) :
    ∃ cyc, (connect_body d al u st).trace =
        scan_head (first_scan d st).1 (first_scan d st).2.2.1 ++ cyc ∧
      (∀ ev ∈ cyc, is_cycle_event ev = true) ∧
      (∀ i, Event.read_aps i ∈ cyc →
        (first_scan d st).1 = lwespr_t.lwespOK ∧ i < (first_scan d st).2.2.1) ∧
      ((first_scan d st).1 = lwespr_t.lwespERRNODEVICE →
        (connect_body d al u st).ret = Flow.brk ∧ cyc = [not_present_log]) ∧
      (∀ v, (connect_body d al u st).ret = Flow.ret v →
        v = lwespr_t.lwespOK ∧ ∃ ssid pass, Event.lwesp_sta_join ssid pass lwespr_t.lwespOK ∈ cyc) ∧
      ((connect_body d al u st).ret = Flow.brk →
        (first_scan d st).1 = lwespr_t.lwespERRNODEVICE ∨ u = 0) ∧
      ((connect_body d al u st).ret = Flow.cont →
        u ≠ 0 ∧ (first_scan d st).1 ≠ lwespr_t.lwespERRNODEVICE) := by
  by_cases hs : (first_scan d st).1 = lwespr_t.lwespOK
  · have hcyc : ∀ ev ∈ log_loop (after_scan d st).aps (List.range (after_scan d st).apf) ++
        (outer_loop d al (after_scan d st) 0).trace, is_cycle_event ev = true := by
      intro ev hev
      rcases List.mem_append.1 hev with h | h
      · exact log_loop_cycle _ _ ev h
      · exact outer_loop_cycle d al _ _ ev h
    have hreads : ∀ i, Event.read_aps i ∈
        log_loop (after_scan d st).aps (List.range (after_scan d st).apf) ++
        (outer_loop d al (after_scan d st) 0).trace → i < (first_scan d st).2.2.1 := by
      intro i hev
      rcases List.mem_append.1 hev with h | h
      · exact List.mem_range.1 (log_loop_reads _ _ i h)
      · exact outer_loop_reads d al _ _ i h
    rcases outer_loop_results d al (after_scan d st) 0 with ⟨hn, hall⟩ | ⟨hsome, pre, hpre, _⟩
    · rw [connect_body_not_joined d al u st hip hs hn]
      refine ⟨log_loop (after_scan d st).aps (List.range (after_scan d st).apf) ++
        (outer_loop d al (after_scan d st) 0).trace ++
        (if (outer_loop d al (after_scan d st) 0).ret.2 = 0 then [no_candidates_log] else []),
        ?_, ?_, ?_, ?_, ?_, ?_, ?_⟩
      · simp [hs, after_scan, List.append_assoc]
      · intro ev hev
        rcases List.mem_append.1 hev with h | h
        · exact hcyc ev h
        · split at h
          · simp only [List.mem_singleton] at h; subst h; rfl
          · simp at h
      · intro i hev
        rcases List.mem_append.1 hev with h | h
        · exact ⟨hs, hreads i h⟩
        · split at h
          · simp [no_candidates_log] at h
          · simp at h
      · intro h; rw [hs] at h; cases h
      · intro v h
        by_cases hu : u = 0 <;> simp [hu] at h
      · intro h
        by_cases hu : u = 0
        · exact Or.inr hu
        · simp [hu] at h
      · intro h
        by_cases hu : u = 0
        · simp [hu] at h
        · exact ⟨hu, by rw [hs]; simp⟩
    · rw [connect_body_joined d al u st hip hs _ hsome]
      refine ⟨log_loop (after_scan d st).aps (List.range (after_scan d st).apf) ++
        (outer_loop d al (after_scan d st) 0).trace, ?_, hcyc, ?_, ?_, ?_, ?_, ?_⟩
      · simp [hs, after_scan, List.append_assoc]
      · intro i hev; exact ⟨hs, hreads i hev⟩
      · intro h; rw [hs] at h; cases h
      · intro v h
        simp only [Flow.ret.injEq] at h
        obtain ⟨ssid, pass, hj⟩ := join_ok_mem_of_results hpre
        exact ⟨h.symm, ssid, pass, List.mem_append_right _ hj⟩
      · intro h; cases h
      · intro h; cases h
  · by_cases hs2 : (first_scan d st).1 = lwespr_t.lwespERRNODEVICE
    · rw [connect_body_nodev d al u st hip hs2]
      refine ⟨[not_present_log], ?_, ?_, ?_, ?_, ?_, ?_, ?_⟩
      · simp [hs2]
      · intro ev hev; simp only [List.mem_singleton] at hev; subst hev; rfl
      · intro i hev; simp [not_present_log] at hev
      · intro _; exact ⟨rfl, rfl⟩
      · intro v h; cases h
      · intro _; exact Or.inl hs2
      · intro h; cases h
    · rw [connect_body_scan_error d al u st hip hs hs2]
      refine ⟨[scan_error_log], rfl, ?_, ?_, ?_, ?_, ?_, ?_⟩
      · intro ev hev; simp only [List.mem_singleton] at hev; subst hev; rfl
      · intro i hev; simp [scan_error_log] at hev
      · intro h; exact absurd h hs2
      · intro v h
        by_cases hu : u = 0 <;> simp [hu] at h
      · intro h
        by_cases hu : u = 0
        · exact Or.inr hu
        · simp [hu] at h
      · intro h
        by_cases hu : u = 0
        · simp [hu] at h
        · exact ⟨hu, hs2⟩
/-! ## The connector -/

theorem scan_not_cycle_event {cyc : List Event} (h : ∀ ev ∈ cyc, is_cycle_event ev = true)
    (r : lwespr_t) (n : Nat) : Event.lwesp_sta_list_ap r n ∉ cyc := by
  intro hmem
  have := h _ hmem
  simp [is_cycle_event] at this

/-- A device-absent scan ends the connector: the function has returned `lwespERR` and only
the log line follows the scan. -/
theorem nodev_scan_final {σ : Type} (d : Driver σ) (al : List ap_entry_t)
    (u fuel : Nat) (st : State σ) (pre post : List Event) (n : Nat)
    (h : (connect_to_preferred_access_point d al u fuel st).trace =
      pre ++ Event.lwesp_sta_list_ap lwespr_t.lwespERRNODEVICE n :: post) :
    (connect_to_preferred_access_point d al u fuel st).ret = some lwespr_t.lwespERR ∧
    post = [not_present_log] ∧
    (∀ ev ∈ post, is_driver_call ev = false) := by
  induction fuel generalizing st pre with
  | zero => simp [connect_to_preferred_access_point] at h
  | succ fuel ih =>
    by_cases hip : (d.lwesp_sta_has_ip st.drv).1 = true
    · have hb := connect_body_has_ip d al u st hip
      rw [connect_succ_ret d al u fuel st lwespr_t.lwespOK (by rw [hb])] at h
      rw [hb] at h
      have : Event.lwesp_sta_list_ap lwespr_t.lwespERRNODEVICE n ∈
          [Event.lwesp_sta_has_ip true] := by
        simp only [] at h; rw [h]; simp
      simp at this
    · have hip' : (d.lwesp_sta_has_ip st.drv).1 = false := by simpa using hip
      obtain ⟨cyc, htr, hcyc, _, hnd, hret, hbrk, hcont⟩ := connect_body_shape d al u st hip'
      have hnotcyc := scan_not_cycle_event hcyc lwespr_t.lwespERRNODEVICE n
      have hhead : Event.lwesp_sta_list_ap lwespr_t.lwespERRNODEVICE n ∉
          [Event.lwesp_sta_has_ip false, Event.printf "Scanning access points...\r\n" []] := by
        simp
      -- the scan of this iteration, when it is the device-absent one
      have hhere : ∀ post', [Event.lwesp_sta_has_ip false,
            Event.printf "Scanning access points...\r\n" []] ++
            (Event.lwesp_sta_list_ap (first_scan d st).1 (first_scan d st).2.2.1 :: cyc) =
            pre ++ Event.lwesp_sta_list_ap lwespr_t.lwespERRNODEVICE n :: post' →
          (first_scan d st).1 = lwespr_t.lwespERRNODEVICE ∧ post' = cyc := by
        intro post' heq
        obtain ⟨p', _, hp2⟩ := split_of_not_mem heq hhead
        cases p' with
        | nil =>
          simp only [List.nil_append, List.cons.injEq, Event.lwesp_sta_list_ap.injEq] at hp2
          exact ⟨hp2.1.1, hp2.2.symm⟩
        | cons y p' =>
          simp only [List.cons_append, List.cons.injEq] at hp2
          exact absurd (by rw [hp2.2]; simp) hnotcyc
      cases hr : (connect_body d al u st).ret with
      | ret v =>
        rw [connect_succ_ret d al u fuel st v hr] at h
        simp only [] at h
        rw [htr] at h
        obtain ⟨hnodev, _⟩ := hhere post h
        rw [(hnd hnodev).1] at hr
        cases hr
      | brk =>
        rw [connect_succ_brk d al u fuel st hr] at h ⊢
        simp only [] at h
        rw [htr] at h
        obtain ⟨hnodev, hpost⟩ := hhere post h
        rw [hpost, (hnd hnodev).2]
        exact ⟨rfl, rfl, by simp [not_present_log, is_driver_call]⟩
      | cont =>
        rw [connect_succ_cont d al u fuel st hr] at h ⊢
        simp only [] at h ⊢
        have hnot : Event.lwesp_sta_list_ap lwespr_t.lwespERRNODEVICE n ∉
            (connect_body d al u st).trace := by
          rw [htr]
          intro hmem
          rcases List.mem_append.1 hmem with hm | hm
          · simp [scan_head] at hm
            exact (hcont hr).2 hm.1.symm
          · exact hnotcyc hm
        obtain ⟨p', _, hp2⟩ := split_of_not_mem h hnot
        exact ih _ _ hp2

/-- C2: when the station has an IP address at the moment of the call, the connector
returns `lwespOK` for every value of `unlimited`, and its only effect is the
`lwesp_sta_has_ip` query: no scan call and no join call is issued. -/
theorem connect_has_ip_short_circuit {σ : Type} (d : Driver σ) (al : List ap_entry_t)
    (u fuel : Nat) (st : State σ) (hip : (d.lwesp_sta_has_ip st.drv).1 = true) :
    (connect_to_preferred_access_point d al u (fuel + 1) st).ret = some lwespr_t.lwespOK ∧
    (connect_to_preferred_access_point d al u (fuel + 1) st).trace =
      [Event.lwesp_sta_has_ip true] ∧
    scan_calls (connect_to_preferred_access_point d al u (fuel + 1) st).trace = [] ∧
    join_calls (connect_to_preferred_access_point d al u (fuel + 1) st).trace = [] := by
  have hb := connect_body_has_ip d al u st hip
  rw [connect_succ_ret d al u fuel st lwespr_t.lwespOK (by rw [hb]), hb]
  simp [scan_calls, join_calls]
/-- C3: a scan that reports the device absent is the last driver call of the connector,
for every value of `unlimited`: whenever the trace contains such a scan, the function has
returned an error (`lwespERR`) and the only effect after the scan is the log line
"Device is not present!", so no further scan, join or loop iteration follows. -/
theorem connect_nodev_scan_is_final {σ : Type} (d : Driver σ) (al : List ap_entry_t)
    (u fuel : Nat) (st : State σ) (pre post : List Event) (n : Nat)
    (h : (connect_to_preferred_access_point d al u fuel st).trace =
      pre ++ Event.lwesp_sta_list_ap lwespr_t.lwespERRNODEVICE n :: post) :
    (connect_to_preferred_access_point d al u fuel st).ret = some lwespr_t.lwespERR ∧
    post = [not_present_log] ∧
    (∀ ev ∈ post, is_driver_call ev = false) :=
  nodev_scan_final d al u fuel st pre post n h

/-- Every value the connector returns is `lwespOK` or `lwespERR`. -/
theorem connect_ret_values {σ : Type} (d : Driver σ) (al : List ap_entry_t)
    (u fuel : Nat) (st : State σ) (v : lwespr_t)
    (hret : (connect_to_preferred_access_point d al u fuel st).ret = some v) :
    v = lwespr_t.lwespOK ∨ v = lwespr_t.lwespERR := by
  induction fuel generalizing st with
  | zero => simp [connect_to_preferred_access_point] at hret
  | succ fuel ih =>
    cases hr : (connect_body d al u st).ret with
    | ret v' =>
      rw [connect_succ_ret d al u fuel st v' hr] at hret
      simp only [Option.some.injEq] at hret
      by_cases hip : (d.lwesp_sta_has_ip st.drv).1 = true
      · rw [connect_body_has_ip d al u st hip] at hr
        simp only [Flow.ret.injEq] at hr
        exact Or.inl (hret.symm.trans hr.symm)
      · have hip' : (d.lwesp_sta_has_ip st.drv).1 = false := by simpa using hip
        obtain ⟨cyc, _, _, _, _, hbret, _, _⟩ := connect_body_shape d al u st hip'
        exact Or.inl (hret.symm.trans (hbret v' hr).1)
    | brk =>
      rw [connect_succ_brk d al u fuel st hr] at hret
      simp only [Option.some.injEq] at hret
      exact Or.inr hret.symm
    | cont =>
      rw [connect_succ_cont d al u fuel st hr] at hret
      exact ih _ hret

/-- C4 (as stated) fails: after a device-absent scan the connector returns `lwespERR`, not
`lwespERRNODEVICE`, and the very same value is returned after another scan failure and
after a scan that discovered no preferred SSID. -/
theorem connect_nodev_value_not_distinct :
    (connect_to_preferred_access_point scripted ap_list 0 1
      (start ⟨[], [], [(lwespr_t.lwespERRNODEVICE, [], 0)], []⟩)).ret
      = some lwespr_t.lwespERR ∧
    (connect_to_preferred_access_point scripted ap_list 0 1
      (start ⟨[], [], [(lwespr_t.lwespERRNODEVICE, [], 0)], []⟩)).ret
      ≠ some lwespr_t.lwespERRNODEVICE ∧
    (connect_to_preferred_access_point scripted ap_list 0 1
      (start ⟨[], [], [(lwespr_t.lwespOTHER 5, [], 0)], []⟩)).ret
      = some lwespr_t.lwespERR ∧
    (connect_to_preferred_access_point scripted ap_list 0 1
      (start ⟨[], [], [(lwespr_t.lwespOK, found_BA, 2)], []⟩)).ret
      = some lwespr_t.lwespERR := by
  refine ⟨by rfl, by decide, by rfl, by rfl⟩
theorem candidates_eq_nil_of_no_match (al : List ap_entry_t) (aps : List lwesp_ap_t) (apf : Nat)
    (h : ∀ e ∈ al, ∀ i, i < apf → (aps_at aps i).ssid ≠ e.ssid) :
    candidates al aps apf = [] := by
  simp only [candidates, List.flatMap_eq_nil_iff]
  intro e he
  simp only [entry_candidates, List.map_eq_nil_iff, List.filter_eq_nil_iff, List.mem_range,
    decide_eq_true_eq]
  exact fun i hi => h e he i hi

theorem scan_calls_scan_head (r : lwespr_t) (n : Nat) : scan_calls (scan_head r n) = [(r, n)] := by
  simp [scan_head, scan_calls]

theorem join_calls_scan_head (r : lwespr_t) (n : Nat) : join_calls (scan_head r n) = [] := by
  simp [scan_head, join_calls]

theorem join_calls_log_loop (aps : List lwesp_ap_t) (is : List Nat) :
    join_calls (log_loop aps is) = [] := by
  induction is with
  | nil => rfl
  | cons i is ih => simp [log_loop, join_calls, ih]

/-- A cycle of a limited call in which no discovered SSID matches a preferred one. -/
theorem no_match_limited {σ : Type} (d : Driver σ) (al : List ap_entry_t)
    (fuel : Nat) (st : State σ)
    (hip : (d.lwesp_sta_has_ip st.drv).1 = false)
    (hs : (first_scan d st).1 = lwespr_t.lwespOK)
    (hno : ∀ e ∈ al, ∀ i, i < (after_scan d st).apf →
      (aps_at (after_scan d st).aps i).ssid ≠ e.ssid) :
    (connect_to_preferred_access_point d al 0 (fuel + 1) st).ret = some lwespr_t.lwespERR ∧
    (connect_to_preferred_access_point d al 0 (fuel + 1) st).trace.getLast? =
      some (Event.printf
        "No access points available with preferred SSID!\r\nPlease check station_manager.c file and edit preferred SSID access points!\r\n"
        []) ∧
    scan_calls (connect_to_preferred_access_point d al 0 (fuel + 1) st).trace =
      [(lwespr_t.lwespOK, (after_scan d st).apf)] ∧
    join_calls (connect_to_preferred_access_point d al 0 (fuel + 1) st).trace = [] := by
  have hcand := candidates_eq_nil_of_no_match al _ _ hno
  obtain ⟨⟨rest, hrest⟩, _⟩ := outer_loop_creds d al (after_scan d st) 0
  rw [hcand] at hrest
  have hjc : join_calls (outer_loop d al (after_scan d st) 0).trace = [] := by
    have : join_creds (outer_loop d al (after_scan d st) 0).trace = [] :=
      (List.append_eq_nil.1 hrest.symm).1
    simpa [join_creds] using this
  have hnone : (outer_loop d al (after_scan d st) 0).ret.1 = none := by
    rcases outer_loop_results d al (after_scan d st) 0 with ⟨hn, _⟩ | ⟨_, pre, hpre, _⟩
    · exact hn
    · simp [join_results, hjc] at hpre
  have htried : (outer_loop d al (after_scan d st) 0).ret.2 = 0 := by
    rw [outer_loop_tried, hjc]; simp
  have hb := connect_body_not_joined d al 0 st hip hs hnone
  rw [connect_succ_brk d al 0 fuel st (by rw [hb]; simp), hb]
  simp only [htried, if_true]
  refine ⟨trivial, ?_, ?_, ?_⟩
  · simp [no_candidates_log, no_candidates_msg]
  · rw [scan_calls_append, scan_calls_append, scan_calls_append, scan_calls_scan_head,
      scan_calls_of_cycle (log_loop_cycle _ _), scan_calls_of_cycle (outer_loop_cycle d al _ _)]
    simp [scan_calls, no_candidates_log]
  · rw [join_calls_append, join_calls_append, join_calls_append, join_calls_scan_head,
      join_calls_log_loop, hjc]
    simp [join_calls, no_candidates_log]

/-! ### No sleep in the connector -/

theorem reads_in_bounds_cycle {cyc rest : List Event} {b : Nat}
    (hcyc : ∀ ev ∈ cyc, is_cycle_event ev = true)
    (hr : ∀ i, Event.read_aps i ∈ cyc → i < b ∧ i < LWESP_ARRAYSIZE_aps)
    (hrest : reads_in_bounds b rest = true) : reads_in_bounds b (cyc ++ rest) = true := by
  induction cyc with
  | nil => exact hrest
  | cons x cyc ih =>
    have hx := hcyc x (List.mem_cons_self _ _)
    have ih' := ih (fun ev hev => hcyc ev (List.mem_cons_of_mem _ hev))
      (fun i hi => hr i (List.mem_cons_of_mem _ hi))
    cases x with
    | read_aps i =>
      have := hr i (List.mem_cons_self _ _)
      simp [reads_in_bounds, this.1, this.2, ih']
    | printf f a => exact ih'
    | lwesp_sta_join s p r => exact ih'
    | lwesp_sta_copy_ip => exact ih'
    | lwesp_init r => simp [is_cycle_event] at hx
    | lwesp_sta_is_joined r => simp [is_cycle_event] at hx
    | lwesp_sta_has_ip r => simp [is_cycle_event] at hx
    | lwesp_sta_list_ap r n => simp [is_cycle_event] at hx
    | lwesp_get_min_at_fw_version => simp [is_cycle_event] at hx
    | lwesp_get_current_at_fw_version => simp [is_cycle_event] at hx
    | tx_thread_create n s => simp [is_cycle_event] at hx
    | tx_thread_sleep t => simp [is_cycle_event] at hx

theorem connect_body_reads {σ : Type} (d : Driver σ) (al : List ap_entry_t) (u : Nat)
    (st : State σ)
    (hcap : ∀ s buf, (d.lwesp_sta_list_ap s buf LWESP_ARRAYSIZE_aps).1 = lwespr_t.lwespOK →
      (d.lwesp_sta_list_ap s buf LWESP_ARRAYSIZE_aps).2.2.1 ≤ LWESP_ARRAYSIZE_aps)
    (b : Nat) (rest : List Event) (hrest : ∀ b', reads_in_bounds b' rest = true) :
    reads_in_bounds b ((connect_body d al u st).trace ++ rest) = true := by
  by_cases hip : (d.lwesp_sta_has_ip st.drv).1 = true
  · rw [connect_body_has_ip d al u st hip]
    exact hrest b
  · have hip' : (d.lwesp_sta_has_ip st.drv).1 = false := by simpa using hip
    obtain ⟨cyc, htr, hcyc, hreads, _⟩ := connect_body_shape d al u st hip'
    rw [htr]
    show reads_in_bounds
      (if (first_scan d st).1 = lwespr_t.lwespOK then (first_scan d st).2.2.1 else 0)
      (cyc ++ rest) = true
    apply reads_in_bounds_cycle hcyc _ (hrest _)
    intro i hi
    obtain ⟨hok, hlt⟩ := hreads i hi
    rw [if_pos hok]
    exact ⟨hlt, lt_of_lt_of_le hlt (hcap _ _ hok)⟩

/-- C10: provided every successful scan stores a count `apf` of at most 100, the capacity
of `aps`, every read `aps[i]` the connector makes, in the logging loop and in the matching
loop, has `i` below the count stored by the most recent scan and below the capacity: no
entry at or beyond the count is read and no index leaves the buffer, whatever count
(`b`) the global held before the call. -/
theorem connect_reads_in_bounds {σ : Type} (d : Driver σ) (al : List ap_entry_t)
    (u fuel : Nat) (st : State σ) (b : Nat)
    (hcap : ∀ s buf, (d.lwesp_sta_list_ap s buf LWESP_ARRAYSIZE_aps).1 = lwespr_t.lwespOK →
      (d.lwesp_sta_list_ap s buf LWESP_ARRAYSIZE_aps).2.2.1 ≤ LWESP_ARRAYSIZE_aps) :
    reads_in_bounds b (connect_to_preferred_access_point d al u fuel st).trace = true := by
  induction fuel generalizing st b with
  | zero => simp [connect_to_preferred_access_point, reads_in_bounds]
  | succ fuel ih =>
    have hnil : ∀ b', reads_in_bounds b' [] = true := fun _ => rfl
    cases hr : (connect_body d al u st).ret with
    | ret v =>
      rw [connect_succ_ret d al u fuel st v hr]
      simpa using connect_body_reads d al u st hcap b [] hnil
    | brk =>
      rw [connect_succ_brk d al u fuel st hr]
      simpa using connect_body_reads d al u st hcap b [] hnil
    | cont =>
      rw [connect_succ_cont d al u fuel st hr]
      exact connect_body_reads d al u st hcap b _ (fun b' => ih _ b')
/-! ### Order of the joins in one cycle -/

theorem pairwise_le_of_all_zero : ∀ (l : List Nat), (∀ a ∈ l, a = 0) → l.Pairwise (· ≤ ·)
  | [], _ => List.Pairwise.nil
  | a :: l, h => by
    refine List.Pairwise.cons ?_ (pairwise_le_of_all_zero l fun b hb => h b (List.mem_cons_of_mem _ hb))
    intro b _
    rw [h a (List.mem_cons_self _ _)]
    exact Nat.zero_le b

/-- The candidate joins of a cycle visit the preference list by ascending index. -/
theorem candidates_indices (al : List ap_entry_t) (aps : List lwesp_ap_t) (apf : Nat) :
    ∃ js : List Nat, js.Pairwise (· ≤ ·) ∧
      js.map (fun j => al[j]?) =
        (candidates al aps apf).map (fun c => some (⟨c.1, c.2⟩ : ap_entry_t)) := by
  induction al with
  | nil => exact ⟨[], List.Pairwise.nil, by simp [candidates]⟩
  | cons e es ih =>
    obtain ⟨js, hp, hm⟩ := ih
    have hc : candidates (e :: es) aps apf =
        entry_candidates aps (List.range apf) e ++ candidates es aps apf := by
      simp [candidates]
    refine ⟨((List.range apf).filter fun i => decide ((aps_at aps i).ssid = e.ssid)).map
      (fun _ => 0) ++ js.map (· + 1), ?_, ?_⟩
    · rw [List.pairwise_append]
      refine ⟨pairwise_le_of_all_zero _ ?_, ?_, ?_⟩
      · intro a ha
        simp only [List.mem_map] at ha
        obtain ⟨_, _, h0⟩ := ha
        exact h0.symm
      · rw [List.pairwise_map]
        exact hp.imp (fun h => Nat.succ_le_succ h)
      · intro a ha b _
        simp only [List.mem_map] at ha
        obtain ⟨_, _, h0⟩ := ha
        rw [← h0]
        exact Nat.zero_le b
    · rw [hc, List.map_append, List.map_append, List.map_map, List.map_map]
      congr 1
      · simp [entry_candidates, Function.comp_def]
      · rw [← hm]
        simp [Function.comp_def]

/-- The effects of the first cycle are a segment of the connector's trace; when one of the
cycle's joins succeeded nothing follows them and the function returns `lwespOK`. -/
theorem connect_first_cycle_segment {σ : Type} (d : Driver σ) (al : List ap_entry_t)
    (u fuel : Nat) (st : State σ)
    (hip : (d.lwesp_sta_has_ip st.drv).1 = false)
    (hs : (first_scan d st).1 = lwespr_t.lwespOK) :
    ∃ rest, (connect_to_preferred_access_point d al u (fuel + 1) st).trace =
        scan_head lwespr_t.lwespOK (after_scan d st).apf ++
          log_loop (after_scan d st).aps (List.range (after_scan d st).apf) ++
          (outer_loop d al (after_scan d st) 0).trace ++ rest ∧
      ((∃ ssid pass, Event.lwesp_sta_join ssid pass lwespr_t.lwespOK ∈
          (outer_loop d al (after_scan d st) 0).trace) →
        rest = [] ∧
        (connect_to_preferred_access_point d al u (fuel + 1) st).ret =
          some lwespr_t.lwespOK) := by
  rcases outer_loop_results d al (after_scan d st) 0 with ⟨hn, hall⟩ | ⟨hsome, _⟩
  · have hb := connect_body_not_joined d al u st hip hs hn
    have hno : ¬ ∃ ssid pass, Event.lwesp_sta_join ssid pass lwespr_t.lwespOK ∈
        (outer_loop d al (after_scan d st) 0).trace :=
      fun ⟨ssid, pass, hj⟩ => no_join_ok_of_results hall ssid pass hj
    by_cases hu : u = 0
    · rw [connect_succ_brk d al u fuel st (by rw [hb]; simp [hu]), hb]
      exact ⟨_, rfl, fun hj => absurd hj hno⟩
    · rw [connect_succ_cont d al u fuel st (by rw [hb]; simp [hu]), hb]
      exact ⟨(if (outer_loop d al (after_scan d st) 0).ret.2 = 0 then [no_candidates_log]
        else []) ++ (connect_to_preferred_access_point d al u fuel
          (outer_loop d al (after_scan d st) 0).st).trace,
        by simp only [List.append_assoc], fun hj => absurd hj hno⟩
  · have hb := connect_body_joined d al u st hip hs _ hsome
    rw [connect_succ_ret d al u fuel st lwespr_t.lwespOK (by rw [hb]), hb]
    exact ⟨[], by simp, fun _ => ⟨rfl, rfl⟩⟩

/-- C1: in a cycle whose scan succeeded, the joins follow the preference list's order, use
only SSIDs that were discovered, and end at the first success.  With `m` the run of the
matching loops on the scan result: (1) the effects of the cycle are a segment of the
connector's trace, and when one of its joins succeeded nothing follows them and the
function returns `lwespOK`; (2) the k-th join uses the SSID and passphrase of
`al[js[k]]` for a non-decreasing list of indices `js`; (3) every joined SSID is the SSID of
a discovered access point with index below `apf`; (4) no join follows a successful one. -/
theorem connect_joins_in_preference_order {σ : Type} (d : Driver σ) (al : List ap_entry_t)
    (u fuel : Nat) (st : State σ)
    (hip : (d.lwesp_sta_has_ip st.drv).1 = false)
    (hs : (first_scan d st).1 = lwespr_t.lwespOK) :
    (∃ rest, (connect_to_preferred_access_point d al u (fuel + 1) st).trace =
        scan_head lwespr_t.lwespOK (after_scan d st).apf ++
          log_loop (after_scan d st).aps (List.range (after_scan d st).apf) ++
          (outer_loop d al (after_scan d st) 0).trace ++ rest ∧
      ((∃ ssid pass, Event.lwesp_sta_join ssid pass lwespr_t.lwespOK ∈
          (outer_loop d al (after_scan d st) 0).trace) →
        rest = [] ∧
        (connect_to_preferred_access_point d al u (fuel + 1) st).ret =
          some lwespr_t.lwespOK)) ∧
    (∃ js : List Nat, js.Pairwise (· ≤ ·) ∧
      js.map (fun j => al[j]?) =
        (join_creds (outer_loop d al (after_scan d st) 0).trace).map
          (fun c => some (⟨c.1, c.2⟩ : ap_entry_t))) ∧
    (∀ c ∈ join_creds (outer_loop d al (after_scan d st) 0).trace,
      ∃ i, i < (after_scan d st).apf ∧ (aps_at (after_scan d st).aps i).ssid = c.1) ∧
    (∀ pre r post, join_results (outer_loop d al (after_scan d st) 0).trace =
        pre ++ r :: post → r = lwespr_t.lwespOK → post = []) := by
  obtain ⟨⟨crest, hcrest⟩, _⟩ := outer_loop_creds d al (after_scan d st) 0
  refine ⟨connect_first_cycle_segment d al u fuel st hip hs, ?_, ?_, ?_⟩
  · obtain ⟨js, hp, hm⟩ := candidates_indices al (after_scan d st).aps (after_scan d st).apf
    refine ⟨js.take (join_creds (outer_loop d al (after_scan d st) 0).trace).length,
      hp.sublist (List.take_sublist _ _), ?_⟩
    rw [List.map_take, hm, hcrest, List.map_append]
    simp
  · intro c hc
    have hmem : c ∈ candidates al (after_scan d st).aps (after_scan d st).apf := by
      rw [hcrest]; exact List.mem_append_left _ hc
    simp only [candidates, List.mem_flatMap, entry_candidates, List.mem_map, List.mem_filter,
      List.mem_range, decide_eq_true_eq] at hmem
    obtain ⟨e, _, i, ⟨hi, hmatch⟩, hce⟩ := hmem
    exact ⟨i, hi, by rw [← hce]; exact hmatch⟩
  · intro pre r post hsplit hr
    rcases outer_loop_results d al (after_scan d st) 0 with ⟨_, hall⟩ | ⟨_, pre0, hpre0, hall0⟩
    · exact absurd hr (hall r (by rw [hsplit]; simp))
    · rw [hpre0] at hsplit
      have hnot : r ∉ pre0 := fun hmem => hall0 r hmem hr
      obtain ⟨p', _, hp2⟩ := split_of_not_mem hsplit hnot
      cases p' with
      | nil =>
        simp only [List.nil_append, List.cons.injEq] at hp2
        exact hp2.2.symm
      | cons y p' =>
        simp only [List.cons_append, List.cons.injEq] at hp2
        have := congrArg List.length hp2.2
        simp at this
        omega
/-! ### Joins per preferred entry -/

theorem filter_eq_length_le_one (f : Nat → String) (s : String) :
    ∀ (l : List Nat), (l.map f).Nodup → (l.filter fun i => decide (f i = s)).length ≤ 1
  | [], _ => by simp
  | a :: l, h => by
    rw [List.map_cons, List.nodup_cons] at h
    by_cases ha : f a = s
    · have hnil : (l.filter fun i => decide (f i = s)) = [] := by
        rw [List.filter_eq_nil_iff]
        intro x hx hfx
        simp only [decide_eq_true_eq] at hfx
        exact h.1 (by rw [ha, ← hfx]; exact List.mem_map_of_mem f hx)
      simp [List.filter_cons, ha, hnil]
    · simp only [List.filter_cons, ha, decide_False, Bool.false_eq_true, if_false]
      exact filter_eq_length_le_one f s l h.2

theorem entry_candidates_of_nodup (aps : List lwesp_ap_t) (is : List Nat) (e : ap_entry_t)
    (h : (is.map fun i => (aps_at aps i).ssid).Nodup) :
    entry_candidates aps is e = [] ∨ entry_candidates aps is e = [(e.ssid, e.pass)] := by
  have hlen := filter_eq_length_le_one (fun i => (aps_at aps i).ssid) e.ssid is h
  unfold entry_candidates
  cases hf : (is.filter fun i => decide ((aps_at aps i).ssid = e.ssid)) with
  | nil => exact Or.inl rfl
  | cons a t =>
    rw [hf] at hlen
    cases t with
    | nil => exact Or.inr rfl
    | cons b t => simp at hlen

theorem candidates_sublist_of_nodup (al : List ap_entry_t) (aps : List lwesp_ap_t) (apf : Nat)
    (h : ((List.range apf).map fun i => (aps_at aps i).ssid).Nodup) :
    (candidates al aps apf).Sublist (al.map fun e => (e.ssid, e.pass)) := by
  induction al with
  | nil => simp [candidates]
  | cons e es ih =>
    have hc : candidates (e :: es) aps apf =
        entry_candidates aps (List.range apf) e ++ candidates es aps apf := by
      simp [candidates]
    rw [hc, List.map_cons]
    rcases entry_candidates_of_nodup aps (List.range apf) e h with h0 | h1
    · rw [h0]; exact List.Sublist.cons _ ih
    · rw [h1]; exact List.Sublist.cons₂ _ ih

/-- C8 (amended): in a cycle whose scan succeeded, after a failed join the connector
continues with the remaining discovered access points and then with the remaining
preferred entries.  With `m` the run of the matching loops on the scan result: (1) the
effects of `m` are a segment of the connector's trace; (2) the joins of `m` are an initial
part of the candidate joins, one per pair of a preferred entry and a discovered access
point (index below `apf`) carrying its SSID, in priority-then-discovery order; (3) when
every join fails, all candidates are attempted; (4) when no SSID occurs twice among the
discovered access points, at most one join is issued per preferred entry (the joins are a
subsequence of the preference list). -/
theorem connect_joins_per_candidate {σ : Type} (d : Driver σ) (al : List ap_entry_t)
    (u fuel : Nat) (st : State σ)
    (hip : (d.lwesp_sta_has_ip st.drv).1 = false)
    (hs : (first_scan d st).1 = lwespr_t.lwespOK) :
    (∃ rest, (connect_to_preferred_access_point d al u (fuel + 1) st).trace =
        scan_head lwespr_t.lwespOK (after_scan d st).apf ++
          log_loop (after_scan d st).aps (List.range (after_scan d st).apf) ++
          (outer_loop d al (after_scan d st) 0).trace ++ rest) ∧
    (∃ rest, candidates al (after_scan d st).aps (after_scan d st).apf =
      join_creds (outer_loop d al (after_scan d st) 0).trace ++ rest) ∧
    ((∀ r ∈ join_results (outer_loop d al (after_scan d st) 0).trace, r ≠ lwespr_t.lwespOK) →
      join_creds (outer_loop d al (after_scan d st) 0).trace =
        candidates al (after_scan d st).aps (after_scan d st).apf) ∧
    (((List.range (after_scan d st).apf).map
        fun i => (aps_at (after_scan d st).aps i).ssid).Nodup →
      (join_creds (outer_loop d al (after_scan d st) 0).trace).Sublist
        (al.map fun e => (e.ssid, e.pass))) := by
  obtain ⟨⟨crest, hcrest⟩, hfull⟩ := outer_loop_creds d al (after_scan d st) 0
  obtain ⟨rest, hrest, _⟩ := connect_first_cycle_segment d al u fuel st hip hs
  refine ⟨⟨rest, hrest⟩, ⟨crest, hcrest⟩, ?_, ?_⟩
  · intro hall
    rcases outer_loop_results d al (after_scan d st) 0 with ⟨hn, _⟩ | ⟨_, pre, hpre, _⟩
    · exact hfull hn
    · exact absurd rfl (hall lwespr_t.lwespOK (by rw [hpre]; simp))
  · intro hnd
    have hsub := candidates_sublist_of_nodup al _ _ hnd
    rw [hcrest] at hsub
    exact (List.sublist_append_left _ _).trans hsub

/-- C8 (as stated) fails: with the single preferred entry `("A", "x")`, two discovered
access points that both carry the SSID `"A"` and a driver whose joins fail, the connector
issues two joins for that one preferred entry in the same cycle. -/
theorem connect_rejoins_duplicate_ssid :
    join_calls (connect_to_preferred_access_point scripted [⟨"A", "x"⟩] 0 1
      (start ⟨[], [], [(lwespr_t.lwespOK, [⟨"A", 1, -40⟩, ⟨"A", 6, -60⟩], 2)],
        [lwespr_t.lwespERR, lwespr_t.lwespERR]⟩)).trace =
      [("A", "x", lwespr_t.lwespERR), ("A", "x", lwespr_t.lwespERR)] ∧
    ¬ (join_creds (connect_to_preferred_access_point scripted [⟨"A", "x"⟩] 0 1
      (start ⟨[], [], [(lwespr_t.lwespOK, [⟨"A", 1, -40⟩, ⟨"A", 6, -60⟩], 2)],
        [lwespr_t.lwespERR, lwespr_t.lwespERR]⟩)).trace).Sublist
      (([⟨"A", "x"⟩] : List ap_entry_t).map fun e => (e.ssid, e.pass)) := by
  refine ⟨by rfl, ?_⟩
  intro h
  have := h.length_le
  revert this
  decide
/-! ## The event callback -/

/-- C7: `lwesp_callback_func` agrees with the reference handler.  For every event tag and
every driver state it returns `lwespOK`, and its thread-creation requests are exactly one
request for the network-client task when the tag is `LWESP_EVT_WIFI_IP_ACQUIRED` and
`lwesp_sta_is_joined()` is true, and none otherwise; a tag outside the four handled ones
produces no effect and leaves the driver state unchanged. -/
theorem lwesp_callback_func_refines_reference {σ : Type} (d : Driver σ)
    (evt : lwesp_evt_type_t) (s : σ) :
    ((lwesp_callback_func d evt s).ret, spawn_calls (lwesp_callback_func d evt s).trace) =
      reference_handler evt (d.lwesp_sta_is_joined s).1 ∧
    (∀ tag, (lwesp_callback_func d (lwesp_evt_type_t.LWESP_EVT_OTHER tag) s).trace = [] ∧
      (lwesp_callback_func d (lwesp_evt_type_t.LWESP_EVT_OTHER tag) s).st = s) := by
  refine ⟨?_, fun tag => ⟨rfl, rfl⟩⟩
  cases evt with
  | LWESP_EVT_AT_VERSION_NOT_SUPPORTED => simp [lwesp_callback_func, reference_handler, spawn_calls]
  | LWESP_EVT_INIT_FINISH => simp [lwesp_callback_func, reference_handler, spawn_calls]
  | LWESP_EVT_RESET_DETECTED => simp [lwesp_callback_func, reference_handler, spawn_calls]
  | LWESP_EVT_WIFI_IP_ACQUIRED =>
    cases hj : (d.lwesp_sta_is_joined s).1 <;>
      simp [lwesp_callback_func, reference_handler, spawn_calls, hj]
  | LWESP_EVT_OTHER tag => simp [lwesp_callback_func, reference_handler, spawn_calls]

/-! ## Concrete runs -/

/-- Ordering scenario: preferences `A`, `B`, discovery `B`, `A`; the one join is on `A`. -/
theorem connect_joins_in_preference_order_witness :
    (scripted.lwesp_sta_has_ip (start script_BA).drv).1 = false ∧
    (first_scan scripted (start script_BA)).1 = lwespr_t.lwespOK ∧
    (∃ js : List Nat, js.Pairwise (· ≤ ·) ∧
      js.map (fun j => prefs_AB[j]?) =
        (join_creds (outer_loop scripted prefs_AB (after_scan scripted (start script_BA)) 0).trace).map
          (fun c => some (⟨c.1, c.2⟩ : ap_entry_t))) ∧
    join_calls (connect_to_preferred_access_point scripted prefs_AB 0 1 (start script_BA)).trace =
      [("A", "x", lwespr_t.lwespOK)] ∧
    (connect_to_preferred_access_point scripted prefs_AB 0 1 (start script_BA)).ret =
      some lwespr_t.lwespOK :=
  ⟨by rfl, by rfl,
    (connect_joins_in_preference_order scripted prefs_AB 0 0 (start script_BA)
      (by rfl) (by rfl)).2.1,
    by rfl, by rfl⟩

/-- A station that already has an IP address: one query, no scan, no join. -/
theorem connect_has_ip_short_circuit_witness :
    (scripted.lwesp_sta_has_ip (start script_has_ip).drv).1 = true ∧
    ((connect_to_preferred_access_point scripted ap_list 1 1 (start script_has_ip)).ret =
        some lwespr_t.lwespOK ∧
      (connect_to_preferred_access_point scripted ap_list 1 1 (start script_has_ip)).trace =
        [Event.lwesp_sta_has_ip true] ∧
      scan_calls (connect_to_preferred_access_point scripted ap_list 1 1
        (start script_has_ip)).trace = [] ∧
      join_calls (connect_to_preferred_access_point scripted ap_list 1 1
        (start script_has_ip)).trace = []) :=
  ⟨by rfl, connect_has_ip_short_circuit scripted ap_list 1 0 (start script_has_ip) (by rfl)⟩

/-- An empty scan followed by a device-absent scan, with `unlimited = 1`. -/
theorem connect_nodev_scan_is_final_witness :
    (connect_to_preferred_access_point scripted ap_list 1 3 (start script_retry_absent)).trace =
      [Event.lwesp_sta_has_ip false, Event.printf "Scanning access points...\r\n" [],
        Event.lwesp_sta_list_ap lwespr_t.lwespOK 0, no_candidates_log,
        Event.lwesp_sta_has_ip false, Event.printf "Scanning access points...\r\n" []] ++
      Event.lwesp_sta_list_ap lwespr_t.lwespERRNODEVICE 0 :: [not_present_log] ∧
    ((connect_to_preferred_access_point scripted ap_list 1 3 (start script_retry_absent)).ret =
        some lwespr_t.lwespERR ∧
      [not_present_log] = [not_present_log] ∧
      (∀ ev ∈ [not_present_log], is_driver_call ev = false)) :=
  ⟨by rfl, connect_nodev_scan_is_final scripted ap_list 1 3 (start script_retry_absent)
    [Event.lwesp_sta_has_ip false, Event.printf "Scanning access points...\r\n" [],
      Event.lwesp_sta_list_ap lwespr_t.lwespOK 0, no_candidates_log,
      Event.lwesp_sta_has_ip false, Event.printf "Scanning access points...\r\n" []]
    [not_present_log] 0 (by rfl)⟩

/-- Ordering scenario: the discovered SSIDs are distinct, one join for one preferred entry. -/
theorem connect_joins_per_candidate_witness :
    (scripted.lwesp_sta_has_ip (start script_BA).drv).1 = false ∧
    (first_scan scripted (start script_BA)).1 = lwespr_t.lwespOK ∧
    ((List.range (after_scan scripted (start script_BA)).apf).map
      fun i => (aps_at (after_scan scripted (start script_BA)).aps i).ssid).Nodup ∧
    (join_creds (outer_loop scripted prefs_AB (after_scan scripted (start script_BA)) 0).trace).Sublist
      (prefs_AB.map fun e => (e.ssid, e.pass)) :=
  ⟨by rfl, by rfl, by decide,
    (connect_joins_per_candidate scripted prefs_AB 0 0 (start script_BA) (by rfl)
      (by rfl)).2.2.2 (by decide)⟩

/-- Runs against the `steady` driver, whose scans always store the count 2. -/
theorem connect_reads_in_bounds_witness :
    (∀ (s : Unit) (buf : List lwesp_ap_t),
      (steady.lwesp_sta_list_ap s buf LWESP_ARRAYSIZE_aps).1 = lwespr_t.lwespOK →
      (steady.lwesp_sta_list_ap s buf LWESP_ARRAYSIZE_aps).2.2.1 ≤ LWESP_ARRAYSIZE_aps) ∧
    reads_in_bounds 0
      (connect_to_preferred_access_point steady prefs_AB 1 3 ⟨(), [], 0⟩).trace = true :=
  ⟨fun _ _ _ => by simp [steady, LWESP_ARRAYSIZE_aps],
    connect_reads_in_bounds steady prefs_AB 1 3 ⟨(), [], 0⟩ 0
      (fun _ _ _ => by simp [steady, LWESP_ARRAYSIZE_aps])⟩
/-! ### Log lines without arguments -/

theorem utils_print_ip_no_bare_printf (c : Bool) (a : String) (ip : lwesp_ip_t) (b fmt : String) :
    Event.printf fmt [] ∉ utils_print_ip c a ip b := by
  unfold utils_print_ip
  split <;> simp

theorem log_loop_no_bare_printf (aps : List lwesp_ap_t) (fmt : String) (is : List Nat) :
    Event.printf fmt [] ∉ log_loop aps is := by
  induction is with
  | nil => simp [log_loop]
  | cons i is ih => simp [log_loop, ih]

theorem inner_loop_no_bare_printf {σ : Type} (d : Driver σ) (e : ap_entry_t) (fmt : String)
    (is : List Nat) :
    ∀ (st : State σ) (tried : Nat), Event.printf fmt [] ∉ (inner_loop d e is st tried).trace := by
  induction is with
  | nil => intro st tried; simp [inner_loop]
  | cons i is ih =>
    intro st tried
    simp only [inner_loop]
    split
    · split
      · have := utils_print_ip_no_bare_printf d.LWESP_CFG_IPV6 "Station IP address: "
          (d.lwesp_sta_copy_ip (d.lwesp_sta_join e.ssid e.pass st.drv).2).1 "\r\n" fmt
        simp [this]
      · have := ih { st with drv := (d.lwesp_sta_join e.ssid e.pass st.drv).2 } 1
        simp [this]
    · have := ih st tried
      simp [this]

theorem outer_loop_no_bare_printf {σ : Type} (d : Driver σ) (fmt : String)
    (es : List ap_entry_t) :
    ∀ (st : State σ) (tried : Nat), Event.printf fmt [] ∉ (outer_loop d es st tried).trace := by
  induction es with
  | nil => intro st tried; simp [outer_loop]
  | cons e es ih =>
    intro st tried
    cases hv : (inner_loop d e (List.range st.apf) st tried).ret.1 with
    | some v =>
      rw [outer_loop_cons_some d e es st tried v hv]
      exact inner_loop_no_bare_printf d e fmt _ st tried
    | none =>
      rw [outer_loop_cons_none d e es st tried hv]
      simp only [List.mem_append, not_or]
      exact ⟨inner_loop_no_bare_printf d e fmt _ st tried, ih _ _⟩

/-- The line "Device is not present!" is logged by an iteration only after a scan that
reported the device absent. -/
theorem connect_body_not_present {σ : Type} (d : Driver σ) (al : List ap_entry_t) (u : Nat)
    (st : State σ) (h : not_present_log ∈ (connect_body d al u st).trace) :
    ∃ n, Event.lwesp_sta_list_ap lwespr_t.lwespERRNODEVICE n ∈ (connect_body d al u st).trace := by
  by_cases hip : (d.lwesp_sta_has_ip st.drv).1 = true
  · rw [connect_body_has_ip d al u st hip] at h
    simp [not_present_log] at h
  · have hip' : (d.lwesp_sta_has_ip st.drv).1 = false := by simpa using hip
    by_cases hs : (first_scan d st).1 = lwespr_t.lwespOK
    · have hlog := log_loop_no_bare_printf (after_scan d st).aps "Device is not present!\r\n"
        (List.range (after_scan d st).apf)
      have hout := outer_loop_no_bare_printf d "Device is not present!\r\n" al (after_scan d st) 0
      cases hm : (outer_loop d al (after_scan d st) 0).ret.1 with
      | some v =>
        rw [connect_body_joined d al u st hip' hs v hm] at h
        simp [not_present_log, scan_head, hlog, hout] at h
      | none =>
        rw [connect_body_not_joined d al u st hip' hs hm] at h
        simp only [List.mem_append] at h
        rcases h with (h | h) | h
        · simp [not_present_log, scan_head, hlog] at h
        · exact absurd h hout
        · split at h
          · simp [not_present_log, no_candidates_log, no_candidates_msg] at h
          · simp at h
    · by_cases hs2 : (first_scan d st).1 = lwespr_t.lwespERRNODEVICE
      · rw [connect_body_nodev d al u st hip' hs2]
        exact ⟨(first_scan d st).2.2.1, by simp [scan_head]⟩
      · rw [connect_body_scan_error d al u st hip' hs hs2] at h
        simp [not_present_log, scan_head, scan_error_log] at h

theorem connect_not_present {σ : Type} (d : Driver σ) (al : List ap_entry_t) (u fuel : Nat)
    (st : State σ)
    (h : not_present_log ∈ (connect_to_preferred_access_point d al u fuel st).trace) :
    ∃ n, Event.lwesp_sta_list_ap lwespr_t.lwespERRNODEVICE n ∈
      (connect_to_preferred_access_point d al u fuel st).trace := by
  induction fuel generalizing st with
  | zero => simp [connect_to_preferred_access_point] at h
  | succ fuel ih =>
    cases hr : (connect_body d al u st).ret with
    | ret v =>
      rw [connect_succ_ret d al u fuel st v hr] at h ⊢
      exact connect_body_not_present d al u st h
    | brk =>
      rw [connect_succ_brk d al u fuel st hr] at h ⊢
      exact connect_body_not_present d al u st h
    | cont =>
      rw [connect_succ_cont d al u fuel st hr] at h ⊢
      rcases List.mem_append.1 h with h1 | h1
      · obtain ⟨n, hn⟩ := connect_body_not_present d al u st h1
        exact ⟨n, List.mem_append_left _ hn⟩
      · obtain ⟨n, hn⟩ := ih _ h1
        exact ⟨n, List.mem_append_right _ hn⟩

/-- A limited call whose scan fails with a code other than device-absent. -/
theorem scan_error_limited {σ : Type} (d : Driver σ) (al : List ap_entry_t) (fuel : Nat)
    (st : State σ) (hip : (d.lwesp_sta_has_ip st.drv).1 = false)
    (hs1 : (first_scan d st).1 ≠ lwespr_t.lwespOK)
    (hs2 : (first_scan d st).1 ≠ lwespr_t.lwespERRNODEVICE) :
    (connect_to_preferred_access_point d al 0 (fuel + 1) st).ret = some lwespr_t.lwespERR ∧
    (connect_to_preferred_access_point d al 0 (fuel + 1) st).trace =
      scan_head (first_scan d st).1 (first_scan d st).2.2.1 ++ [scan_error_log] := by
  have hb := connect_body_scan_error d al 0 st hip hs1 hs2
  rw [connect_succ_brk d al 0 fuel st (by rw [hb]; simp), hb]
  exact ⟨rfl, rfl⟩
/-- C4 (amended): the return value does not tell the device-absent case apart; the log line
does.  (1) For every `unlimited`, a scan reporting the device absent makes the connector
return the generic `lwespERR`, and only the line "Device is not present!" follows the scan.
(2) `lwespERR` is the only value the connector returns besides `lwespOK`.  With
`unlimited = 0` the same `lwespERR` is returned (3) after a scan that fails with any other
code, logged as "Error on WIFI scan procedure!", and (4) after a successful scan in which
no preferred SSID was discovered, logged with the "no candidates" message.  (5) The line
"Device is not present!" is logged exactly when a scan reported the device absent. -/
theorem connect_failure_value_is_generic {σ : Type} (d : Driver σ) (al : List ap_entry_t)
    (u fuel : Nat) (st : State σ) :
    (∀ pre n post, (connect_to_preferred_access_point d al u fuel st).trace =
        pre ++ Event.lwesp_sta_list_ap lwespr_t.lwespERRNODEVICE n :: post →
      (connect_to_preferred_access_point d al u fuel st).ret = some lwespr_t.lwespERR ∧
      post = [Event.printf "Device is not present!\r\n" []]) ∧
    (∀ v, (connect_to_preferred_access_point d al u fuel st).ret = some v →
      v = lwespr_t.lwespOK ∨ v = lwespr_t.lwespERR) ∧
    ((d.lwesp_sta_has_ip st.drv).1 = false →
      (first_scan d st).1 ≠ lwespr_t.lwespOK →
      (first_scan d st).1 ≠ lwespr_t.lwespERRNODEVICE →
      (connect_to_preferred_access_point d al 0 (fuel + 1) st).ret = some lwespr_t.lwespERR ∧
      (connect_to_preferred_access_point d al 0 (fuel + 1) st).trace =
        scan_head (first_scan d st).1 (first_scan d st).2.2.1 ++
          [Event.printf "Error on WIFI scan procedure!\r\n" []]) ∧
    ((d.lwesp_sta_has_ip st.drv).1 = false →
      (first_scan d st).1 = lwespr_t.lwespOK →
      (∀ e ∈ al, ∀ i, i < (after_scan d st).apf →
        (aps_at (after_scan d st).aps i).ssid ≠ e.ssid) →
      (connect_to_preferred_access_point d al 0 (fuel + 1) st).ret = some lwespr_t.lwespERR ∧
      (connect_to_preferred_access_point d al 0 (fuel + 1) st).trace.getLast? =
        some (Event.printf
          "No access points available with preferred SSID!\r\nPlease check station_manager.c file and edit preferred SSID access points!\r\n"
          [])) ∧
    (Event.printf "Device is not present!\r\n" [] ∈
        (connect_to_preferred_access_point d al u fuel st).trace ↔
      ∃ n, Event.lwesp_sta_list_ap lwespr_t.lwespERRNODEVICE n ∈
        (connect_to_preferred_access_point d al u fuel st).trace) := by
  refine ⟨?_, fun v hv => connect_ret_values d al u fuel st v hv, ?_, ?_, ?_, ?_⟩
  · intro pre n post hsplit
    obtain ⟨h1, h2, _⟩ := nodev_scan_final d al u fuel st pre post n hsplit
    exact ⟨h1, h2⟩
  · intro hip hs1 hs2
    exact scan_error_limited d al fuel st hip hs1 hs2
  · intro hip hs hno
    obtain ⟨h1, h2, _⟩ := no_match_limited d al fuel st hip hs hno
    exact ⟨h1, h2⟩
  · intro h
    exact connect_not_present d al u fuel st h
  · intro ⟨n, hn⟩
    obtain ⟨pre, post, hsplit⟩ := List.append_of_mem hn
    obtain ⟨_, h2, _⟩ := nodev_scan_final d al u fuel st pre post n hsplit
    rw [hsplit, h2]
    simp [not_present_log]

/-- C5: when the station has no IP address, the scan succeeds and no discovered SSID (index
below the stored count, which may be zero) is string-equal to a preferred SSID, the
connector called with `unlimited = 0` logs the "no candidates" message as its last effect,
issues exactly one scan and no join, and returns the failure value `lwespERR` after that
single iteration. -/
theorem connect_no_match_limited {σ : Type} (d : Driver σ) (al : List ap_entry_t)
    (fuel : Nat) (st : State σ)
    (hip : (d.lwesp_sta_has_ip st.drv).1 = false)
    (hs : (first_scan d st).1 = lwespr_t.lwespOK)
    (hno : ∀ e ∈ al, ∀ i, i < (after_scan d st).apf →
      (aps_at (after_scan d st).aps i).ssid ≠ e.ssid) :
    (connect_to_preferred_access_point d al 0 (fuel + 1) st).ret = some lwespr_t.lwespERR ∧
    (connect_to_preferred_access_point d al 0 (fuel + 1) st).trace.getLast? =
      some (Event.printf
        "No access points available with preferred SSID!\r\nPlease check station_manager.c file and edit preferred SSID access points!\r\n"
        []) ∧
    scan_calls (connect_to_preferred_access_point d al 0 (fuel + 1) st).trace =
      [(lwespr_t.lwespOK, (after_scan d st).apf)] ∧
    join_calls (connect_to_preferred_access_point d al 0 (fuel + 1) st).trace = []:=
  no_match_limited d al fuel st hip hs hno

theorem mem_scan_calls {t : List Event} {r : lwespr_t} {n : Nat}
    (h : Event.lwesp_sta_list_ap r n ∈ t) : (r, n) ∈ scan_calls t := by
  induction t with
  | nil => simp at h
  | cons x t ih =>
    rcases List.mem_cons.1 h with h1 | h1
    · subst h1; simp [scan_calls]
    · have := ih h1
      cases x <;> simp [scan_calls, this]

/-- The source's preference table against the discovery set `B`, `A`: no SSID matches. -/
theorem found_BA_matches_no_preferred :
    ∀ e ∈ ap_list, ∀ i, i < (after_scan scripted (start script_BA_refused)).apf →
      (aps_at (after_scan scripted (start script_BA_refused)).aps i).ssid ≠ e.ssid := by
  decide

/-- Three failing calls with `unlimited = 0`, all returning `lwespERR`: a device-absent
scan, a scan failing with another code, and a scan that discovers `B` and `A` while the
source's table prefers neither.  Only the first logs "Device is not present!". -/
theorem connect_failure_value_is_generic_witness :
    ((connect_to_preferred_access_point scripted ap_list 0 1 (start script_absent)).ret =
        some lwespr_t.lwespERR ∧
      [not_present_log] = [Event.printf "Device is not present!\r\n" []]) ∧
    ((connect_to_preferred_access_point scripted ap_list 0 1 (start script_scan_error)).ret =
        some lwespr_t.lwespERR ∧
      (connect_to_preferred_access_point scripted ap_list 0 1 (start script_scan_error)).trace =
        scan_head (lwespr_t.lwespOTHER 5) 0 ++
          [Event.printf "Error on WIFI scan procedure!\r\n" []]) ∧
    ((connect_to_preferred_access_point scripted ap_list 0 1 (start script_BA_refused)).ret =
        some lwespr_t.lwespERR ∧
      (connect_to_preferred_access_point scripted ap_list 0 1
        (start script_BA_refused)).trace.getLast? =
        some (Event.printf
          "No access points available with preferred SSID!\r\nPlease check station_manager.c file and edit preferred SSID access points!\r\n"
          [])) ∧
    Event.printf "Device is not present!\r\n" [] ∉
      (connect_to_preferred_access_point scripted ap_list 0 1 (start script_BA_refused)).trace :=
  ⟨(connect_failure_value_is_generic scripted ap_list 0 1 (start script_absent)).1
      [Event.lwesp_sta_has_ip false, Event.printf "Scanning access points...\r\n" []] 0
      [not_present_log] (by rfl),
    (connect_failure_value_is_generic scripted ap_list 0 0 (start script_scan_error)).2.2.1
      (by rfl) (by decide) (by decide),
    (connect_failure_value_is_generic scripted ap_list 0 0 (start script_BA_refused)).2.2.2.1
      (by rfl) (by rfl) found_BA_matches_no_preferred,
    fun h =>
      match (connect_failure_value_is_generic scripted ap_list 0 1
        (start script_BA_refused)).2.2.2.2.1 h with
      | ⟨_, hn⟩ => absurd (mem_scan_calls hn) (by
          have hsc : scan_calls (connect_to_preferred_access_point scripted ap_list 0 1
              (start script_BA_refused)).trace = [(lwespr_t.lwespOK, 2)] := by rfl
          rw [hsc]; simp)⟩

/-- Two limited calls without a match.  In the first the scan discovers `B` and `A`, the
source's table prefers neither: both entries are logged and compared with each of the four
preferred SSIDs, no join is issued, the "no candidates" line is logged and the result is
`lwespERR`.  In the second the discovery set is empty. -/
theorem connect_no_match_limited_witness :
    ((scripted.lwesp_sta_has_ip (start script_BA_refused).drv).1 = false ∧
      (first_scan scripted (start script_BA_refused)).1 = lwespr_t.lwespOK ∧
      (after_scan scripted (start script_BA_refused)).aps = found_BA ∧
      (after_scan scripted (start script_BA_refused)).apf = 2) ∧
    ((connect_to_preferred_access_point scripted ap_list 0 1 (start script_BA_refused)).ret =
        some lwespr_t.lwespERR ∧
      (connect_to_preferred_access_point scripted ap_list 0 1
        (start script_BA_refused)).trace.getLast? =
        some (Event.printf
          "No access points available with preferred SSID!\r\nPlease check station_manager.c file and edit preferred SSID access points!\r\n"
          []) ∧
      scan_calls (connect_to_preferred_access_point scripted ap_list 0 1
        (start script_BA_refused)).trace =
        [(lwespr_t.lwespOK, (after_scan scripted (start script_BA_refused)).apf)] ∧
      join_calls (connect_to_preferred_access_point scripted ap_list 0 1
        (start script_BA_refused)).trace = []) ∧
    ((connect_to_preferred_access_point scripted ap_list 0 1 (start script_BA_refused)).trace.filter
        (fun ev => decide (ev = Event.read_aps 0 ∨ ev = Event.read_aps 1))).length = 14 ∧
    (connect_to_preferred_access_point scripted ap_list 0 1 (start script_nothing)).ret =
      some lwespr_t.lwespERR :=
  ⟨⟨by rfl, by rfl, by rfl, by rfl⟩,
    connect_no_match_limited scripted ap_list 0 (start script_BA_refused) (by rfl) (by rfl)
      found_BA_matches_no_preferred,
    by decide,
    (connect_no_match_limited scripted ap_list 0 (start script_nothing) (by rfl) (by rfl)
      (fun _ _ i hi => absurd hi (Nat.not_lt_zero i))).1⟩
/-! ### What separates two scans -/

end LwespStation
